import Mathlib

/-!
Verification development for the blender-mmd decoding core: a shallow
embedding of the VMD motion parser (`blender_mmd/vmd/parser.py`), the PMX
model parser (`blender_mmd/pmx/parser.py`), and the physics chain detector
(`blender_mmd/chains.py`), together with theorems settling the frozen
specification claims.

Modelling conventions:
- Byte buffers are `List ℕ` (each entry a byte value).
- Python floats are modelled exactly by `PyFloat`: a rational for finite
  values plus NaN and the two infinities.  IEEE-754 binary32 decoding is
  embedded bit-exactly; Python float literals appearing in comparisons are
  embedded as their binary64 rational values.
- Text decoding (CP932 / UTF-16-LE / UTF-8) is abstracted to the raw byte
  content of the field (no claim inspects decoded characters); the VMD
  null-truncation of fixed-width fields is embedded.
- Fallible reads return `Except`; Python exceptions become error values.
-/

/-- Exact model of a Python float: finite values are rationals, plus the
three IEEE special values that binary32/binary64 decoding can produce. -/
inductive PyFloat where
  | finite (q : ℚ)
  | nan
  | inf
  | ninf
deriving DecidableEq

/-- Python unary minus on a float. -/
def pyNeg : PyFloat → PyFloat
  | .finite q => .finite (-q)
  | .nan => .nan
  | .inf => .ninf
  | .ninf => .inf

/-- Python `x == 0` (or `x == 0.0`) on a float: true exactly on finite zero
(sign of zero is immaterial, matching IEEE equality). -/
def pyEqZero : PyFloat → Bool
  | .finite q => q == 0
  | _ => false

/-- Python `x == r` against a finite rational constant (NaN and infinities
compare unequal to every finite constant). -/
def pyEqRat (x : PyFloat) (r : ℚ) : Bool :=
  match x with
  | .finite q => q == r
  | _ => false

/-- Byte lookup with default 0.  All uses are guarded so that the default is
never exercised on the paths the source program takes. -/
def byteAt (buf : List ℕ) (i : ℕ) : ℕ := buf.getD i 0

/-- Little-endian unsigned 16-bit value at `i`. -/
def u16At (buf : List ℕ) (i : ℕ) : ℕ :=
  byteAt buf i + 256 * byteAt buf (i + 1)

/-- Little-endian unsigned 32-bit value at `i`. -/
def u32At (buf : List ℕ) (i : ℕ) : ℕ :=
  byteAt buf i + 256 * byteAt buf (i + 1) + 65536 * byteAt buf (i + 2) +
    16777216 * byteAt buf (i + 3)

/-- Reinterpret an unsigned `w`-bit value as two's-complement signed. -/
def toSigned (w : ℕ) (v : ℕ) : ℤ :=
  if v < 2 ^ (w - 1) then (v : ℤ) else (v : ℤ) - 2 ^ w

/-- Little-endian signed 32-bit value at `i`. -/
def i32At (buf : List ℕ) (i : ℕ) : ℤ := toSigned 32 (u32At buf i)

/-- Exact value of an IEEE-754 binary32 bit pattern.  Normal values are
`(2^23 + m) · 2^e / 2^150` and subnormals `2m / 2^150` (the common
denominator keeps the construction inside `mkRat`, which normalizes);
exponent 255 gives NaN or ±∞. -/
def decodeF32 (b : ℕ) : PyFloat :=
  let s : ℕ := b / 2 ^ 31 % 2
  let e : ℕ := b / 2 ^ 23 % 256
  let m : ℕ := b % 2 ^ 23
  if e = 255 then
    if m = 0 then (if s = 1 then .ninf else .inf) else .nan
  else
    let num : ℤ := if e = 0 then (m : ℤ) * 2 else ((2 ^ 23 + m : ℕ) : ℤ) * 2 ^ e
    .finite (mkRat (if s = 1 then -num else num) (2 ^ 150))

/-- Little-endian binary32 float at `i`. -/
def f32At (buf : List ℕ) (i : ℕ) : PyFloat := decodeF32 (u32At buf i)

/-- `n` bytes starting at `pos`. -/
def bytesAt (buf : List ℕ) (pos n : ℕ) : List ℕ := (buf.drop pos).take n

/-! ## VMD data model

Embeds `blender_mmd/vmd/types.py` as the parser (`blender_mmd/vmd/parser.py`),
the importer and `tests/test_ik.py` use it: `PropertyKeyframe` and the
`property_keyframes` sequence are part of the interface the parser
constructs.  `VmdMotionDeclared` below records what `vmd/types.py` actually
declares, which lacks them. -/

/-- A bone keyframe (`BoneKeyframe` in `vmd/types.py`).  `bone_name` is the
raw null-truncated byte content of the 15-byte CP932 field. -/
structure BoneKeyframe where
  bone_name : List ℕ
  frame : ℕ
  location : PyFloat × PyFloat × PyFloat
  rotation : PyFloat × PyFloat × PyFloat × PyFloat
  interpolation : List ℕ
deriving DecidableEq

/-- A morph keyframe (`MorphKeyframe` in `vmd/types.py`). -/
structure MorphKeyframe where
  morph_name : List ℕ
  frame : ℕ
  weight : PyFloat
deriving DecidableEq

/-- A camera keyframe (`CameraKeyframe` in `vmd/types.py`). -/
structure CameraKeyframe where
  frame : ℕ
  distance : PyFloat
  location : PyFloat × PyFloat × PyFloat
  rotation : PyFloat × PyFloat × PyFloat
  interpolation : List ℕ
  fov : ℕ
  orthographic : Bool
deriving DecidableEq

/-- A property (IK-toggle/visibility) keyframe, as `vmd/parser.py` constructs
it and `tests/test_ik.py` requires it: frame, visibility flag, and a list of
(IK-bone-name bytes, enabled) pairs. -/
structure PropertyKeyframe where
  frame : ℕ
  visible : Bool
  ik_states : List (List ℕ × Bool)
deriving DecidableEq

/-- The motion value `vmd/parser.py` builds and returns: model name plus the
four keyframe sequences (this is the shape `parser.py`'s `VmdMotion(...)`
call and `tests/test_ik.py` demand). -/
structure VmdMotion where
  model_name : List ℕ
  bone_keyframes : List BoneKeyframe
  morph_keyframes : List MorphKeyframe
  camera_keyframes : List CameraKeyframe
  property_keyframes : List PropertyKeyframe
deriving DecidableEq

/-- What `vmd/types.py` actually declares for `VmdMotion`: only three
keyframe sequences and no `property_keyframes` field (and no
`PropertyKeyframe` class at all).  The parser's `VmdMotion(...,
property_keyframes=...)` call and its `from .types import PropertyKeyframe`
are unsatisfiable against this declaration. -/
structure VmdMotionDeclared where
  model_name : List ℕ
  bone_keyframes : List BoneKeyframe
  morph_keyframes : List MorphKeyframe
  camera_keyframes : List CameraKeyframe
deriving DecidableEq

/-- Errors `vmd/parser.py` raises from its header checks (`ValueError`). -/
inductive VmdError where
  | tooSmall (n : ℕ)
  | badSignature
deriving DecidableEq

/-- `_read_text`: truncate a fixed-width field at the first null byte (the
CP932 decode of the remaining bytes is abstracted to the bytes themselves). -/
def vmdReadText (data : List ℕ) : List ℕ := data.takeWhile (· ≠ 0)

/-- The 25 signature bytes `b"Vocaloid Motion Data 0002"`. -/
def vmdSignature : List ℕ :=
  [86, 111, 99, 97, 108, 111, 105, 100, 32, 77, 111, 116, 105, 111, 110,
   32, 68, 97, 116, 97, 32, 48, 48, 48, 50]

/-- The header signature test: `buf[0:30].startswith(_SIGNATURE)`. -/
def vmdSigOk (buf : List ℕ) : Bool :=
  vmdSignature.isPrefixOf (buf.take 30)

/-- Decode one 111-byte bone keyframe record starting at `pos`: 15-byte
name, uint32 frame, 3-float location, 4-float quaternion (all-zero repaired
to identity by setting w to 1), 64 interpolation bytes. -/
def vmdDecodeBoneKf (buf : List ℕ) (pos : ℕ) : BoneKeyframe :=
  let rx := f32At buf (pos + 31)
  let ry := f32At buf (pos + 35)
  let rz := f32At buf (pos + 39)
  let rw := f32At buf (pos + 43)
  { bone_name := vmdReadText (bytesAt buf pos 15)
    frame := u32At buf (pos + 15)
    location := (f32At buf (pos + 19), f32At buf (pos + 23), f32At buf (pos + 27))
    rotation :=
      if pyEqZero rx && pyEqZero ry && pyEqZero rz && pyEqZero rw then
        (rx, ry, rz, .finite 1)
      else (rx, ry, rz, rw)
    interpolation := bytesAt buf (pos + 47) 64 }

/-- The shared shape of the three fixed-record-size VMD section loops: up
to `cnt` records of `sz` bytes each; a record that does not fit before the
buffer end logs and stops (`break`), returning the records decoded so far. -/
def vmdFixedLoop {α : Type} (buf : List ℕ) (sz : ℕ) (dec : ℕ → α) :
    ℕ → ℕ → List α × ℕ
  | 0, pos => ([], pos)
  | n + 1, pos =>
    if pos + sz > buf.length then ([], pos)
    else
      let r := vmdFixedLoop buf sz dec n (pos + sz)
      (dec pos :: r.1, r.2)

/-- The bone-keyframe loop of `_read_bone_keyframes` (111-byte records). -/
def vmdBoneLoop (buf : List ℕ) (cnt pos : ℕ) : List BoneKeyframe × ℕ :=
  vmdFixedLoop buf 111 (vmdDecodeBoneKf buf) cnt pos

/-- `_read_bone_keyframes`: uint32 count then the record loop; a buffer too
short for the count itself yields the empty list. -/
def vmdReadBoneKeyframes (buf : List ℕ) (pos : ℕ) : List BoneKeyframe × ℕ :=
  if pos + 4 > buf.length then ([], pos)
  else vmdBoneLoop buf (u32At buf pos) (pos + 4)

/-- Decode one 23-byte morph keyframe record starting at `pos`. -/
def vmdDecodeMorphKf (buf : List ℕ) (pos : ℕ) : MorphKeyframe :=
  { morph_name := vmdReadText (bytesAt buf pos 15)
    frame := u32At buf (pos + 15)
    weight := f32At buf (pos + 19) }

/-- The morph-keyframe loop of `_read_morph_keyframes` (23-byte records). -/
def vmdMorphLoop (buf : List ℕ) (cnt pos : ℕ) : List MorphKeyframe × ℕ :=
  vmdFixedLoop buf 23 (vmdDecodeMorphKf buf) cnt pos

/-- `_read_morph_keyframes`. -/
def vmdReadMorphKeyframes (buf : List ℕ) (pos : ℕ) : List MorphKeyframe × ℕ :=
  if pos + 4 > buf.length then ([], pos)
  else vmdMorphLoop buf (u32At buf pos) (pos + 4)

/-- Decode one 61-byte camera keyframe record starting at `pos`. -/
def vmdDecodeCameraKf (buf : List ℕ) (pos : ℕ) : CameraKeyframe :=
  { frame := u32At buf pos
    distance := f32At buf (pos + 4)
    location := (f32At buf (pos + 8), f32At buf (pos + 12), f32At buf (pos + 16))
    rotation := (f32At buf (pos + 20), f32At buf (pos + 24), f32At buf (pos + 28))
    interpolation := bytesAt buf (pos + 32) 24
    fov := u32At buf (pos + 56)
    orthographic := byteAt buf (pos + 60) != 0 }

/-- The camera-keyframe loop of `_read_camera_keyframes` (61-byte records). -/
def vmdCameraLoop (buf : List ℕ) (cnt pos : ℕ) : List CameraKeyframe × ℕ :=
  vmdFixedLoop buf 61 (vmdDecodeCameraKf buf) cnt pos

/-- `_read_camera_keyframes`. -/
def vmdReadCameraKeyframes (buf : List ℕ) (pos : ℕ) : List CameraKeyframe × ℕ :=
  if pos + 4 > buf.length then ([], pos)
  else vmdCameraLoop buf (u32At buf pos) (pos + 4)

/-- `_skip_section`: skip `count × entry_size` bytes, clamped to the buffer
end. -/
def vmdSkipSection (buf : List ℕ) (pos entrySize : ℕ) : ℕ :=
  if pos + 4 > buf.length then pos
  else min (pos + 4 + u32At buf pos * entrySize) buf.length

/-- The inner IK-state loop of `_read_property_keyframes`: up to `cnt`
(20-byte name, enabled byte) pairs; a pair whose 21 bytes do not fit stops
the inner loop. -/
def vmdIkLoop (buf : List ℕ) : ℕ → ℕ → List (List ℕ × Bool) × ℕ
  | 0, pos => ([], pos)
  | k + 1, pos =>
    if pos + 21 > buf.length then ([], pos)
    else
      let nm := vmdReadText (bytesAt buf pos 20)
      let en := byteAt buf (pos + 20) != 0
      let r := vmdIkLoop buf k (pos + 21)
      ((nm, en) :: r.1, r.2)

/-- The per-record loop of `_read_property_keyframes`.  Note the source
appends the keyframe even when the inner IK loop stopped early, so a final
record may carry fewer IK pairs than its declared count. -/
def vmdPropLoop (buf : List ℕ) : ℕ → ℕ → List PropertyKeyframe × ℕ
  | 0, pos => ([], pos)
  | n + 1, pos =>
    if pos + 5 > buf.length then ([], pos)
    else
      let frame := u32At buf pos
      let visible := byteAt buf (pos + 4) != 0
      if pos + 5 + 4 > buf.length then ([], pos + 5)
      else
        let ikc := u32At buf (pos + 5)
        let s := vmdIkLoop buf ikc (pos + 9)
        let r := vmdPropLoop buf n s.2
        ({ frame := frame, visible := visible, ik_states := s.1 } :: r.1, r.2)

/-- `_read_property_keyframes`. -/
def vmdReadPropertyKeyframes (buf : List ℕ) (pos : ℕ) :
    List PropertyKeyframe × ℕ :=
  if pos + 4 > buf.length then ([], pos)
  else vmdPropLoop buf (u32At buf pos) (pos + 4)

/-- `vmd.parser.parse` on an in-memory buffer: the 50-byte header check
(size, then `startswith` on the 25-byte signature), the 20-byte model name,
then bone, morph, camera, skipped light (28-byte records) and shadow
(9-byte records) sections, then property keyframes. -/
def vmdParse (buf : List ℕ) : Except VmdError VmdMotion :=
  if buf.length < 50 then .error (.tooSmall buf.length)
  else if !vmdSigOk buf then .error .badSignature
  else
    let model_name := vmdReadText (bytesAt buf 30 20)
    let b := vmdReadBoneKeyframes buf 50
    let m := vmdReadMorphKeyframes buf b.2
    let c := vmdReadCameraKeyframes buf m.2
    let p4 := vmdSkipSection buf c.2 28
    let p5 := vmdSkipSection buf p4 9
    let p := vmdReadPropertyKeyframes buf p5
    .ok { model_name := model_name
          bone_keyframes := b.1
          morph_keyframes := m.1
          camera_keyframes := c.1
          property_keyframes := p.1 }

/-! ## PMX data model and parser

Embeds `blender_mmd/pmx/types.py` and `blender_mmd/pmx/parser.py`.  Name and
comment fields keep their raw bytes (length-prefixed text decoding is
abstracted to the byte content). -/

/-- Hard failures of the PMX parser: `ValueError` for bad magic, version or
enum tags, `EOFError` for short reads, `IndexError` for a globals array
shorter than 8 bytes. -/
inductive PmxError where
  | badMagic
  | unsupportedVersion
  | eof
  | headerIndex
  | badWeightType
  | badMorphType
  | badMorphCategory
  | badRigidShape
  | badRigidMode
  | badJointMode
deriving DecidableEq

/-- Float triple. -/
abbrev V3 := PyFloat × PyFloat × PyFloat
/-- Float pair. -/
abbrev V2 := PyFloat × PyFloat
/-- Float quadruple. -/
abbrev V4 := PyFloat × PyFloat × PyFloat × PyFloat

/-- `_pos`: MMD position to Blender position, `(x, y, z) → (x, z, y)`. -/
def _pos (x y z : PyFloat) : V3 := (x, z, y)

/-- `_rot`: MMD euler rotation to Blender euler rotation,
`(x, y, z) → (x, z, y)`. -/
def _rot (x y z : PyFloat) : V3 := (x, z, y)

/-- `_pos3`: tuple form of `_pos`. -/
def _pos3 (v : V3) : V3 := _pos v.1 v.2.1 v.2.2

/-- `_rot3`: tuple form of `_rot`. -/
def _rot3 (v : V3) : V3 := _rot v.1 v.2.1 v.2.2

/-- `read_bytes`: `n` bytes or an end-of-data error. -/
def rdBytes (buf : List ℕ) (n pos : ℕ) : Except PmxError (List ℕ × ℕ) :=
  if pos + n ≤ buf.length then .ok (bytesAt buf pos n, pos + n) else .error .eof

/-- `read_uint8`. -/
def rdU8 (buf : List ℕ) (pos : ℕ) : Except PmxError (ℕ × ℕ) :=
  if pos + 1 ≤ buf.length then .ok (byteAt buf pos, pos + 1) else .error .eof

/-- `read_int8`. -/
def rdI8 (buf : List ℕ) (pos : ℕ) : Except PmxError (ℤ × ℕ) :=
  if pos + 1 ≤ buf.length then .ok (toSigned 8 (byteAt buf pos), pos + 1)
  else .error .eof

/-- `read_uint16`. -/
def rdU16 (buf : List ℕ) (pos : ℕ) : Except PmxError (ℕ × ℕ) :=
  if pos + 2 ≤ buf.length then .ok (u16At buf pos, pos + 2) else .error .eof

/-- `read_int16`. -/
def rdI16 (buf : List ℕ) (pos : ℕ) : Except PmxError (ℤ × ℕ) :=
  if pos + 2 ≤ buf.length then .ok (toSigned 16 (u16At buf pos), pos + 2)
  else .error .eof

/-- `read_uint32`. -/
def rdU32 (buf : List ℕ) (pos : ℕ) : Except PmxError (ℕ × ℕ) :=
  if pos + 4 ≤ buf.length then .ok (u32At buf pos, pos + 4) else .error .eof

/-- `read_int32`. -/
def rdI32 (buf : List ℕ) (pos : ℕ) : Except PmxError (ℤ × ℕ) :=
  if pos + 4 ≤ buf.length then .ok (i32At buf pos, pos + 4) else .error .eof

/-- `read_float`. -/
def rdF32 (buf : List ℕ) (pos : ℕ) : Except PmxError (PyFloat × ℕ) :=
  if pos + 4 ≤ buf.length then .ok (f32At buf pos, pos + 4) else .error .eof

/-- `read_vec2`. -/
def rdVec2 (buf : List ℕ) (pos : ℕ) : Except PmxError (V2 × ℕ) :=
  if pos + 8 ≤ buf.length then
    .ok ((f32At buf pos, f32At buf (pos + 4)), pos + 8)
  else .error .eof

/-- `read_vec3`. -/
def rdVec3 (buf : List ℕ) (pos : ℕ) : Except PmxError (V3 × ℕ) :=
  if pos + 12 ≤ buf.length then
    .ok ((f32At buf pos, f32At buf (pos + 4), f32At buf (pos + 8)), pos + 12)
  else .error .eof

/-- `read_vec4`. -/
def rdVec4 (buf : List ℕ) (pos : ℕ) : Except PmxError (V4 × ℕ) :=
  if pos + 16 ≤ buf.length then
    .ok ((f32At buf pos, f32At buf (pos + 4), f32At buf (pos + 8),
          f32At buf (pos + 12)), pos + 16)
  else .error .eof

/-- `read_text`: int32 byte count (0 = empty, negative means `f.read`
cannot satisfy the request and `read_bytes` raises), then that many bytes;
the header-selected decode is abstracted to the bytes. -/
def rdText (buf : List ℕ) (pos : ℕ) : Except PmxError (List ℕ × ℕ) := do
  let (len, p) ← rdI32 buf pos
  if len = 0 then .ok ([], p)
  else if len < 0 then .error .eof
  else rdBytes buf len.toNat p

/-- `_read_signed_index`: 1-, 2- or 4-byte signed read selected by the
header width (any width other than 1 or 2 falls to the 4-byte branch, as in
the source's `else`). -/
def rdSignedIdx (buf : List ℕ) (size pos : ℕ) : Except PmxError (ℤ × ℕ) :=
  if size = 1 then rdI8 buf pos
  else if size = 2 then rdI16 buf pos
  else rdI32 buf pos

/-- `_read_unsigned_index`. -/
def rdUnsignedIdx (buf : List ℕ) (size pos : ℕ) : Except PmxError (ℕ × ℕ) :=
  if size = 1 then rdU8 buf pos
  else if size = 2 then rdU16 buf pos
  else rdU32 buf pos

/-- PMX `Header`. -/
structure Header where
  version : PyFloat
  encoding : String
  additional_uv_count : ℕ
  vertex_index_size : ℕ
  texture_index_size : ℕ
  material_index_size : ℕ
  bone_index_size : ℕ
  morph_index_size : ℕ
  rigid_index_size : ℕ
deriving DecidableEq

/-- The four magic bytes `b"PMX "`. -/
def pmxMagic : List ℕ := [80, 77, 88, 32]

/-- Binary64 value of the Python literal `2.1` (the parser compares the
widened float32 version field against it with `in (2.0, 2.1)`). -/
def pyTwoPointOne : ℚ := mkRat 4728779608739021 2251799813685248

/-- `_parse_header`: magic check, version float check against the Python
float literals 2.0 and 2.1, globals count and the 8 globals bytes. -/
def pmxParseHeader (buf : List ℕ) (pos : ℕ) : Except PmxError (Header × ℕ) := do
  let (magic, p1) ← rdBytes buf 4 pos
  if magic ≠ pmxMagic then .error .badMagic
  else do
  let (version, p2) ← rdF32 buf p1
  if !(pyEqRat version 2 || pyEqRat version pyTwoPointOne) then
    .error .unsupportedVersion
  else do
  let (gcount, p3) ← rdU8 buf p2
  let (g, p4) ← rdBytes buf gcount p3
  if g.length < 8 then .error .headerIndex
  else
    .ok ({ version := version
           encoding := if byteAt g 0 = 1 then "utf-8" else "utf-16-le"
           additional_uv_count := byteAt g 1
           vertex_index_size := byteAt g 2
           texture_index_size := byteAt g 3
           material_index_size := byteAt g 4
           bone_index_size := byteAt g 5
           morph_index_size := byteAt g 6
           rigid_index_size := byteAt g 7 }, p4)

/-- Count-bounded record loop: decode `n` records sequentially, propagating
the first failure (the PMX decoder's all-or-nothing section policy). -/
def pmxLoop {α : Type} (step : ℕ → Except PmxError (α × ℕ)) :
    ℕ → ℕ → Except PmxError (List α × ℕ)
  | 0, pos => .ok ([], pos)
  | n + 1, pos => do
    let (a, p) ← step pos
    let (l, p2) ← pmxLoop step n p
    .ok (a :: l, p2)

/-- The five mutually exclusive bone-weight records. -/
inductive BoneWeight where
  | bdef1 (bone : ℤ)
  | bdef2 (bone1 bone2 : ℤ) (weight : PyFloat)
  | bdef4 (bones : ℤ × ℤ × ℤ × ℤ) (weights : V4)
  | sdef (bone1 bone2 : ℤ) (weight : PyFloat) (c r0 r1 : V3)
  | qdef (bones : ℤ × ℤ × ℤ × ℤ) (weights : V4)
deriving DecidableEq

/-- PMX `Vertex`. -/
structure Vertex where
  position : V3
  normal : V3
  uv : V2
  additional_uvs : List V4
  weight_type : ℕ
  weight : BoneWeight
  edge_scale : PyFloat
deriving DecidableEq

/-- `_parse_vertex`. -/
def pmxParseVertex (buf : List ℕ) (hdr : Header) (pos : ℕ) :
    Except PmxError (Vertex × ℕ) := do
  let (p0, p1) ← rdVec3 buf pos
  let (n0, p2) ← rdVec3 buf p1
  let (uv, p3) ← rdVec2 buf p2
  let (auvs, p4) ← pmxLoop (rdVec4 buf) hdr.additional_uv_count p3
  let (wt, p5) ← rdU8 buf p4
  let (weight, p6) ←
    (if wt = 0 then do
      let (b, q) ← rdSignedIdx buf hdr.bone_index_size p5
      (.ok (BoneWeight.bdef1 b, q) : Except PmxError (BoneWeight × ℕ))
    else if wt = 1 then do
      let (b1, q1) ← rdSignedIdx buf hdr.bone_index_size p5
      let (b2, q2) ← rdSignedIdx buf hdr.bone_index_size q1
      let (w, q3) ← rdF32 buf q2
      .ok (.bdef2 b1 b2 w, q3)
    else if wt = 2 then do
      let (b1, q1) ← rdSignedIdx buf hdr.bone_index_size p5
      let (b2, q2) ← rdSignedIdx buf hdr.bone_index_size q1
      let (b3, q3) ← rdSignedIdx buf hdr.bone_index_size q2
      let (b4, q4) ← rdSignedIdx buf hdr.bone_index_size q3
      let (ws, q5) ← rdVec4 buf q4
      .ok (.bdef4 (b1, b2, b3, b4) ws, q5)
    else if wt = 3 then do
      let (b1, q1) ← rdSignedIdx buf hdr.bone_index_size p5
      let (b2, q2) ← rdSignedIdx buf hdr.bone_index_size q1
      let (w, q3) ← rdF32 buf q2
      let (c, q4) ← rdVec3 buf q3
      let (r0, q5) ← rdVec3 buf q4
      let (r1, q6) ← rdVec3 buf q5
      .ok (.sdef b1 b2 w (_pos3 c) (_pos3 r0) (_pos3 r1), q6)
    else if wt = 4 then do
      let (b1, q1) ← rdSignedIdx buf hdr.bone_index_size p5
      let (b2, q2) ← rdSignedIdx buf hdr.bone_index_size q1
      let (b3, q3) ← rdSignedIdx buf hdr.bone_index_size q2
      let (b4, q4) ← rdSignedIdx buf hdr.bone_index_size q3
      let (ws, q5) ← rdVec4 buf q4
      .ok (.qdef (b1, b2, b3, b4) ws, q5)
    else .error .badWeightType)
  let (es, p7) ← rdF32 buf p6
  .ok ({ position := _pos3 p0
         normal := _pos3 n0
         uv := uv
         additional_uvs := auvs
         weight_type := wt
         weight := weight
         edge_scale := es }, p7)

/-- `_parse_vertices`: int32 count then the records. -/
def pmxParseVertices (buf : List ℕ) (hdr : Header) (pos : ℕ) :
    Except PmxError (List Vertex × ℕ) := do
  let (count, p) ← rdI32 buf pos
  pmxLoop (pmxParseVertex buf hdr) count.toNat p

/-- `_parse_faces`: int32 index count, then `index_count // 3` triangles of
three vertex indices each, appended in reversed winding order `(f3, f2, f1)`. -/
def pmxParseFaces (buf : List ℕ) (hdr : Header) (pos : ℕ) :
    Except PmxError (List (ℕ × ℕ × ℕ) × ℕ) := do
  let (indexCount, p) ← rdI32 buf pos
  pmxLoop (fun q => do
      let (f1, q1) ← rdUnsignedIdx buf hdr.vertex_index_size q
      let (f2, q2) ← rdUnsignedIdx buf hdr.vertex_index_size q1
      let (f3, q3) ← rdUnsignedIdx buf hdr.vertex_index_size q2
      .ok ((f3, f2, f1), q3))
    (indexCount.fdiv 3).toNat p

/-- Reference description of the faces section before winding reversal: the
same reads, with each triangle kept in the file's source order `(f1, f2, f3)`.
This is the spec-side definition the winding-reversal claim compares
`pmxParseFaces` against. -/
def pmxFaceTriplesSrc (buf : List ℕ) (hdr : Header) (pos : ℕ) :
    Except PmxError (List (ℕ × ℕ × ℕ) × ℕ) := do
  let (indexCount, p) ← rdI32 buf pos
  pmxLoop (fun q => do
      let (f1, q1) ← rdUnsignedIdx buf hdr.vertex_index_size q
      let (f2, q2) ← rdUnsignedIdx buf hdr.vertex_index_size q1
      let (f3, q3) ← rdUnsignedIdx buf hdr.vertex_index_size q2
      .ok ((f1, f2, f3), q3))
    (indexCount.fdiv 3).toNat p

/-- `_parse_textures`: texture paths (raw bytes). -/
def pmxParseTextures (buf : List ℕ) (pos : ℕ) :
    Except PmxError (List (List ℕ) × ℕ) := do
  let (count, p) ← rdI32 buf pos
  pmxLoop (rdText buf) count.toNat p

/-- PMX `Material`. -/
structure Material where
  name : List ℕ
  name_e : List ℕ
  diffuse : V4
  specular : V3
  shininess : PyFloat
  ambient : V3
  flags : ℕ
  edge_color : V4
  edge_size : PyFloat
  texture_index : ℤ
  sphere_texture_index : ℤ
  sphere_mode : ℕ
  toon_sharing : ℕ
  toon_texture_index : ℤ
  comment : List ℕ
  face_count : ℤ
deriving DecidableEq

/-- `_parse_material`. -/
def pmxParseMaterial (buf : List ℕ) (hdr : Header) (pos : ℕ) :
    Except PmxError (Material × ℕ) := do
  let (name, p1) ← rdText buf pos
  let (name_e, p2) ← rdText buf p1
  let (diffuse, p3) ← rdVec4 buf p2
  let (specular, p4) ← rdVec3 buf p3
  let (shininess, p5) ← rdF32 buf p4
  let (ambient, p6) ← rdVec3 buf p5
  let (flags, p7) ← rdU8 buf p6
  let (edge_color, p8) ← rdVec4 buf p7
  let (edge_size, p9) ← rdF32 buf p8
  let (ti, p10) ← rdSignedIdx buf hdr.texture_index_size p9
  let (sti, p11) ← rdSignedIdx buf hdr.texture_index_size p10
  let (sm, p12) ← rdU8 buf p11
  let (ts, p13) ← rdU8 buf p12
  let (tti, p14) ←
    (if ts = 0 then rdSignedIdx buf hdr.texture_index_size p13
     else do
       let (v, q) ← rdU8 buf p13
       (.ok ((v : ℤ), q) : Except PmxError (ℤ × ℕ)))
  let (comment, p15) ← rdText buf p14
  let (fc, p16) ← rdI32 buf p15
  .ok ({ name := name, name_e := name_e, diffuse := diffuse,
         specular := specular, shininess := shininess, ambient := ambient,
         flags := flags, edge_color := edge_color, edge_size := edge_size,
         texture_index := ti, sphere_texture_index := sti,
         sphere_mode := sm, toon_sharing := ts, toon_texture_index := tti,
         comment := comment, face_count := fc }, p16)

/-- `_parse_materials`. -/
def pmxParseMaterials (buf : List ℕ) (hdr : Header) (pos : ℕ) :
    Except PmxError (List Material × ℕ) := do
  let (count, p) ← rdI32 buf pos
  pmxLoop (pmxParseMaterial buf hdr) count.toNat p

/-- PMX `IKLink`. -/
structure IKLink where
  bone_index : ℤ
  has_limits : Bool
  limit_min : Option V3
  limit_max : Option V3
deriving DecidableEq

/-- PMX `Bone`. -/
structure Bone where
  name : List ℕ
  name_e : List ℕ
  position : V3
  parent : ℤ
  transform_order : ℤ
  flags : ℕ
  display_connection : ℤ ⊕ V3
  additional_transform : Option (ℤ × PyFloat)
  fixed_axis : Option V3
  local_axis_x : Option V3
  local_axis_z : Option V3
  external_parent : Option ℤ
  ik_target : Option ℤ
  ik_loop_count : Option ℤ
  ik_limit_angle : Option PyFloat
  ik_links : Option (List IKLink)
deriving DecidableEq

/-- One IK link record inside `_parse_bone`. -/
def pmxParseIkLink (buf : List ℕ) (hdr : Header) (pos : ℕ) :
    Except PmxError (IKLink × ℕ) := do
  let (lb, p1) ← rdSignedIdx buf hdr.bone_index_size pos
  let (hl, p2) ← rdU8 buf p1
  if hl ≠ 0 then do
    let (mn, p3) ← rdVec3 buf p2
    let (mx, p4) ← rdVec3 buf p3
    .ok ({ bone_index := lb, has_limits := true,
           limit_min := some (_rot3 mn), limit_max := some (_rot3 mx) }, p4)
  else
    .ok ({ bone_index := lb, has_limits := false,
           limit_min := none, limit_max := none }, p2)

/-- `_parse_bone`: the 16-bit flag word is read first and gates each
optional sub-record in the source's fixed order. -/
def pmxParseBone (buf : List ℕ) (hdr : Header) (pos : ℕ) :
    Except PmxError (Bone × ℕ) := do
  let (name, p1) ← rdText buf pos
  let (name_e, p2) ← rdText buf p1
  let (bpos, p3) ← rdVec3 buf p2
  let (parent, p4) ← rdSignedIdx buf hdr.bone_index_size p3
  let (torder, p5) ← rdI32 buf p4
  let (flags, p6) ← rdU16 buf p5
  let (dconn, p7) ←
    (if flags &&& 0x0001 ≠ 0 then do
      let (b, q) ← rdSignedIdx buf hdr.bone_index_size p6
      (.ok ((Sum.inl b : ℤ ⊕ V3), q) : Except PmxError ((ℤ ⊕ V3) × ℕ))
    else do
      let (o, q) ← rdVec3 buf p6
      .ok (Sum.inr (_pos3 o), q))
  let (atr, p8) ←
    (if flags &&& 0x0100 ≠ 0 || flags &&& 0x0200 ≠ 0 then do
      let (b, q1) ← rdSignedIdx buf hdr.bone_index_size p7
      let (f, q2) ← rdF32 buf q1
      (.ok (some (b, f), q2) : Except PmxError (Option (ℤ × PyFloat) × ℕ))
    else .ok (none, p7))
  let (fax, p9) ←
    (if flags &&& 0x0400 ≠ 0 then do
      let (a, q) ← rdVec3 buf p8
      (.ok (some (_pos3 a), q) : Except PmxError (Option V3 × ℕ))
    else .ok (none, p8))
  let (lax, p10) ←
    (if flags &&& 0x0800 ≠ 0 then do
      let (lx, q1) ← rdVec3 buf p9
      let (lz, q2) ← rdVec3 buf q1
      (.ok (some (_pos3 lx, _pos3 lz), q2) :
        Except PmxError (Option (V3 × V3) × ℕ))
    else .ok (none, p9))
  let (ep, p11) ←
    (if flags &&& 0x2000 ≠ 0 then do
      let (v, q) ← rdI32 buf p10
      (.ok (some v, q) : Except PmxError (Option ℤ × ℕ))
    else .ok (none, p10))
  let (ik, p12) ←
    (if flags &&& 0x0020 ≠ 0 then do
      let (tgt, q1) ← rdSignedIdx buf hdr.bone_index_size p11
      let (lc, q2) ← rdI32 buf q1
      let (la, q3) ← rdF32 buf q2
      let (lkc, q4) ← rdI32 buf q3
      let (links, q5) ← pmxLoop (pmxParseIkLink buf hdr) lkc.toNat q4
      (.ok (some (tgt, lc, la, links), q5) :
        Except PmxError (Option (ℤ × ℤ × PyFloat × List IKLink) × ℕ))
    else .ok (none, p11))
  .ok ({ name := name, name_e := name_e, position := _pos3 bpos,
         parent := parent, transform_order := torder, flags := flags,
         display_connection := dconn, additional_transform := atr,
         fixed_axis := fax,
         local_axis_x := lax.map Prod.fst,
         local_axis_z := lax.map Prod.snd,
         external_parent := ep,
         ik_target := ik.map (·.1),
         ik_loop_count := ik.map (·.2.1),
         ik_limit_angle := ik.map (·.2.2.1),
         ik_links := ik.map (·.2.2.2) }, p12)

/-- `_parse_bones`. -/
def pmxParseBones (buf : List ℕ) (hdr : Header) (pos : ℕ) :
    Except PmxError (List Bone × ℕ) := do
  let (count, p) ← rdI32 buf pos
  pmxLoop (pmxParseBone buf hdr) count.toNat p

/-- The nine morph types of `MorphType` (tags 0–8). -/
inductive MorphType where
  | group | vertex | bone | uv | uv1 | uv2 | uv3 | uv4 | material
deriving DecidableEq

/-- `MorphType(val)`: enum construction, `ValueError` outside 0–8. -/
def morphTypeOfNat (v : ℕ) : Except PmxError MorphType :=
  if v = 0 then .ok .group
  else if v = 1 then .ok .vertex
  else if v = 2 then .ok .bone
  else if v = 3 then .ok .uv
  else if v = 4 then .ok .uv1
  else if v = 5 then .ok .uv2
  else if v = 6 then .ok .uv3
  else if v = 7 then .ok .uv4
  else if v = 8 then .ok .material
  else .error .badMorphType

/-- The five morph offset-record shapes. -/
inductive MorphOffset where
  | group (morph_index : ℤ) (factor : PyFloat)
  | vertex (vertex_index : ℕ) (offset : V3)
  | bone (bone_index : ℤ) (location : V3) (rotation : V4)
  | uv (vertex_index : ℕ) (offset : V4)
  | material (material_index : ℤ) (blend_mode : ℕ) (diffuse : V4)
      (specular : V3) (shininess : PyFloat) (ambient : V3) (edge_color : V4)
      (edge_size : PyFloat) (texture_factor : V4)
      (sphere_texture_factor : V4) (toon_texture_factor : V4)
deriving DecidableEq

/-- One offset record of `_parse_morph`, shaped by the morph type tag.  The
BONE branch repairs an all-zero file quaternion to identity and then applies
the quaternion coordinate conversion `(qx, qy, qz, qw) → (qx, qz, −qy, qw)`. -/
def pmxParseMorphOffset (buf : List ℕ) (hdr : Header) (mt : MorphType)
    (pos : ℕ) : Except PmxError (MorphOffset × ℕ) :=
  match mt with
  | .group => do
    let (mi, p1) ← rdSignedIdx buf hdr.morph_index_size pos
    let (f, p2) ← rdF32 buf p1
    .ok (.group mi f, p2)
  | .vertex => do
    let (vi, p1) ← rdUnsignedIdx buf hdr.vertex_index_size pos
    let (o, p2) ← rdVec3 buf p1
    .ok (.vertex vi (_pos3 o), p2)
  | .bone => do
    let (bi, p1) ← rdSignedIdx buf hdr.bone_index_size pos
    let (l, p2) ← rdVec3 buf p1
    let (q, p3) ← rdVec4 buf p2
    let q' :=
      if pyEqZero q.1 && pyEqZero q.2.1 && pyEqZero q.2.2.1 &&
          pyEqZero q.2.2.2 then
        ((PyFloat.finite 0, PyFloat.finite 0, PyFloat.finite 0,
          PyFloat.finite 1) : V4)
      else q
    .ok (.bone bi (_pos3 l) (q'.1, q'.2.2.1, pyNeg q'.2.1, q'.2.2.2), p3)
  | .material => do
    let (mi, p1) ← rdSignedIdx buf hdr.material_index_size pos
    let (bm, p2) ← rdU8 buf p1
    let (dif, p3) ← rdVec4 buf p2
    let (spec, p4) ← rdVec3 buf p3
    let (shin, p5) ← rdF32 buf p4
    let (amb, p6) ← rdVec3 buf p5
    let (ec, p7) ← rdVec4 buf p6
    let (es, p8) ← rdF32 buf p7
    let (tf, p9) ← rdVec4 buf p8
    let (stf, p10) ← rdVec4 buf p9
    let (ttf, p11) ← rdVec4 buf p10
    .ok (.material mi bm dif spec shin amb ec es tf stf ttf, p11)
  | _ => do
    let (vi, p1) ← rdUnsignedIdx buf hdr.vertex_index_size pos
    let (o, p2) ← rdVec4 buf p1
    .ok (.uv vi o, p2)

/-- PMX `Morph`. -/
structure Morph where
  name : List ℕ
  name_e : List ℕ
  category : ℕ
  morph_type : MorphType
  offsets : List MorphOffset
deriving DecidableEq

/-- `_parse_morph`: name pair, category (validated 0–4 by the
`MorphCategory` enum), morph type tag, offset count, then that many offset
records of the tag's shape. -/
def pmxParseMorph (buf : List ℕ) (hdr : Header) (pos : ℕ) :
    Except PmxError (Morph × ℕ) := do
  let (name, p1) ← rdText buf pos
  let (name_e, p2) ← rdText buf p1
  let (cat, p3) ← rdU8 buf p2
  if cat > 4 then .error .badMorphCategory
  else do
  let (mtv, p4) ← rdU8 buf p3
  let mt ← morphTypeOfNat mtv
  let (ocount, p5) ← rdI32 buf p4
  let (offs, p6) ← pmxLoop (pmxParseMorphOffset buf hdr mt) ocount.toNat p5
  .ok ({ name := name, name_e := name_e, category := cat,
         morph_type := mt, offsets := offs }, p6)

/-- `_parse_morphs`. -/
def pmxParseMorphs (buf : List ℕ) (hdr : Header) (pos : ℕ) :
    Except PmxError (List Morph × ℕ) := do
  let (count, p) ← rdI32 buf pos
  pmxLoop (pmxParseMorph buf hdr) count.toNat p

/-- PMX `DisplayItem`. -/
structure DisplayItem where
  display_type : ℕ
  index : ℤ
deriving DecidableEq

/-- PMX `DisplayFrame`. -/
structure DisplayFrame where
  name : List ℕ
  name_e : List ℕ
  is_special : Bool
  items : List DisplayItem
deriving DecidableEq

/-- `_parse_display_frames`. -/
def pmxParseDisplayFrames (buf : List ℕ) (hdr : Header) (pos : ℕ) :
    Except PmxError (List DisplayFrame × ℕ) := do
  let (count, p) ← rdI32 buf pos
  pmxLoop (fun q => do
      let (name, q1) ← rdText buf q
      let (name_e, q2) ← rdText buf q1
      let (sp, q3) ← rdU8 buf q2
      let (icount, q4) ← rdI32 buf q3
      let (items, q5) ← pmxLoop (fun r => do
          let (dt, r1) ← rdU8 buf r
          let (idx, r2) ←
            (if dt = 0 then rdSignedIdx buf hdr.bone_index_size r1
             else rdSignedIdx buf hdr.morph_index_size r1)
          .ok (({ display_type := dt, index := idx } : DisplayItem), r2))
          icount.toNat q4
      .ok (({ name := name, name_e := name_e, is_special := sp ≠ 0,
              items := items } : DisplayFrame), q5)) count.toNat p

/-- The three rigid-body simulation modes of `RigidMode`. -/
inductive RigidMode where
  | static | dynamic | dynamicBone
deriving DecidableEq

/-- PMX `RigidBody`. -/
structure RigidBody where
  name : List ℕ
  name_e : List ℕ
  bone_index : ℤ
  collision_group_number : ℕ
  collision_group_mask : ℕ
  shape : ℕ
  size : V3
  position : V3
  rotation : V3
  mass : PyFloat
  linear_damping : PyFloat
  angular_damping : PyFloat
  bounce : PyFloat
  friction : PyFloat
  mode : RigidMode
deriving DecidableEq

/-- `RigidMode(val)`: enum construction, `ValueError` outside 0–2. -/
def rigidModeOfNat (v : ℕ) : Except PmxError RigidMode :=
  if v = 0 then .ok .static
  else if v = 1 then .ok .dynamic
  else if v = 2 then .ok .dynamicBone
  else .error .badRigidMode

/-- `_parse_rigid_body`.  The shape dimensions keep file order (the source
comments that `size` gets no coordinate swap). -/
def pmxParseRigidBody (buf : List ℕ) (hdr : Header) (pos : ℕ) :
    Except PmxError (RigidBody × ℕ) := do
  let (name, p1) ← rdText buf pos
  let (name_e, p2) ← rdText buf p1
  let (bi, p3) ← rdSignedIdx buf hdr.bone_index_size p2
  let (cgn, p4) ← rdU8 buf p3
  let (cgm, p5) ← rdU16 buf p4
  let (shp, p6) ← rdU8 buf p5
  if shp > 2 then .error .badRigidShape
  else do
  let (sz, p7) ← rdVec3 buf p6
  let (ps, p8) ← rdVec3 buf p7
  let (rt, p9) ← rdVec3 buf p8
  let (mass, p10) ← rdF32 buf p9
  let (ld, p11) ← rdF32 buf p10
  let (ad, p12) ← rdF32 buf p11
  let (bo, p13) ← rdF32 buf p12
  let (fr, p14) ← rdF32 buf p13
  let (mv, p15) ← rdU8 buf p14
  let mode ← rigidModeOfNat mv
  .ok ({ name := name, name_e := name_e, bone_index := bi,
         collision_group_number := cgn, collision_group_mask := cgm,
         shape := shp, size := sz, position := _pos3 ps, rotation := _rot3 rt,
         mass := mass, linear_damping := ld, angular_damping := ad,
         bounce := bo, friction := fr, mode := mode }, p15)

/-- `_parse_rigid_bodies`. -/
def pmxParseRigidBodies (buf : List ℕ) (hdr : Header) (pos : ℕ) :
    Except PmxError (List RigidBody × ℕ) := do
  let (count, p) ← rdI32 buf pos
  pmxLoop (pmxParseRigidBody buf hdr) count.toNat p

/-- PMX `Joint`. -/
structure Joint where
  name : List ℕ
  name_e : List ℕ
  mode : ℕ
  src_rigid : ℤ
  dest_rigid : ℤ
  position : V3
  rotation : V3
  limit_move_lower : V3
  limit_move_upper : V3
  limit_rotate_lower : V3
  limit_rotate_upper : V3
  spring_constant_move : V3
  spring_constant_rotate : V3
deriving DecidableEq

/-- `_parse_joint` (`JointMode` accepts only the 6-DOF spring tag 0). -/
def pmxParseJoint (buf : List ℕ) (hdr : Header) (pos : ℕ) :
    Except PmxError (Joint × ℕ) := do
  let (name, p1) ← rdText buf pos
  let (name_e, p2) ← rdText buf p1
  let (mv, p3) ← rdU8 buf p2
  if mv ≠ 0 then .error .badJointMode
  else do
  let (sr, p4) ← rdSignedIdx buf hdr.rigid_index_size p3
  let (dr, p5) ← rdSignedIdx buf hdr.rigid_index_size p4
  let (ps, p6) ← rdVec3 buf p5
  let (rt, p7) ← rdVec3 buf p6
  let (mlo, p8) ← rdVec3 buf p7
  let (mhi, p9) ← rdVec3 buf p8
  let (rlo, p10) ← rdVec3 buf p9
  let (rhi, p11) ← rdVec3 buf p10
  let (smv, p12) ← rdVec3 buf p11
  let (srt, p13) ← rdVec3 buf p12
  .ok ({ name := name, name_e := name_e, mode := mv, src_rigid := sr,
         dest_rigid := dr, position := _pos3 ps, rotation := _rot3 rt,
         limit_move_lower := _pos3 mlo, limit_move_upper := _pos3 mhi,
         limit_rotate_lower := _rot3 rlo, limit_rotate_upper := _rot3 rhi,
         spring_constant_move := _pos3 smv,
         spring_constant_rotate := _rot3 srt }, p13)

/-- `_parse_joints`. -/
def pmxParseJoints (buf : List ℕ) (hdr : Header) (pos : ℕ) :
    Except PmxError (List Joint × ℕ) := do
  let (count, p) ← rdI32 buf pos
  pmxLoop (pmxParseJoint buf hdr) count.toNat p

/-- PMX `Model`. -/
structure Model where
  header : Header
  name : List ℕ
  name_e : List ℕ
  comment : List ℕ
  comment_e : List ℕ
  vertices : List Vertex := []
  faces : List (ℕ × ℕ × ℕ) := []
  textures : List (List ℕ) := []
  materials : List Material := []
  bones : List Bone := []
  morphs : List Morph := []
  display_frames : List DisplayFrame := []
  rigid_bodies : List RigidBody := []
  joints : List Joint := []
deriving DecidableEq

/-- `pmx.parser.parse` on an in-memory buffer: header, the four text fields,
then the nine sections strictly in file order. -/
def pmxParse (buf : List ℕ) : Except PmxError Model := do
  let (hdr, p0) ← pmxParseHeader buf 0
  let (name, p1) ← rdText buf p0
  let (name_e, p2) ← rdText buf p1
  let (comment, p3) ← rdText buf p2
  let (comment_e, p4) ← rdText buf p3
  let (vertices, p5) ← pmxParseVertices buf hdr p4
  let (faces, p6) ← pmxParseFaces buf hdr p5
  let (textures, p7) ← pmxParseTextures buf p6
  let (materials, p8) ← pmxParseMaterials buf hdr p7
  let (bones, p9) ← pmxParseBones buf hdr p8
  let (morphs, p10) ← pmxParseMorphs buf hdr p9
  let (dfs, p11) ← pmxParseDisplayFrames buf hdr p10
  let (rbs, p12) ← pmxParseRigidBodies buf hdr p11
  let (joints, _) ← pmxParseJoints buf hdr p12
  .ok { header := hdr, name := name, name_e := name_e, comment := comment,
        comment_e := comment_e, vertices := vertices, faces := faces,
        textures := textures, materials := materials, bones := bones,
        morphs := morphs, display_frames := dfs, rigid_bodies := rbs,
        joints := joints }

/-! ## Chain detection

Embeds `blender_mmd/chains.py`.  The regex-based name classification
(`_classify_chain`) concerns no claim and cannot be embedded byte-exactly
(it matches Japanese patterns over host-decoded strings), so it is kept as
an explicit parameter `classify`, applied exactly where the source applies
`_classify_chain` (to the root's name and the member bodies' names); every
theorem below holds for all classifiers, in particular the source's. -/

/-- Out-of-range default for rigid-body lookup.  Every lookup the detector
performs is on an index the validity filter has already bounded, so the
default is never exercised on the paths the source program takes. -/
def rbDefault : RigidBody :=
  { name := [], name_e := [], bone_index := -1, collision_group_number := 0,
    collision_group_mask := 0, shape := 0,
    size := (.finite 0, .finite 0, .finite 0),
    position := (.finite 0, .finite 0, .finite 0),
    rotation := (.finite 0, .finite 0, .finite 0),
    mass := .finite 0, linear_damping := .finite 0,
    angular_damping := .finite 0, bounce := .finite 0,
    friction := .finite 0, mode := .static }

/-- `model.rigid_bodies[i]`. -/
def rbAt (model : Model) (i : ℕ) : RigidBody :=
  model.rigid_bodies.getD i rbDefault

/-- Insert into an ascending list (helper for `sortNat`). -/
def insortNat (x : ℕ) : List ℕ → List ℕ
  | [] => [x]
  | y :: ys => if x ≤ y then x :: y :: ys else y :: insortNat x ys

/-- Python `sorted` on a list of naturals.  Structural insertion sort: the
output is the unique ascending reordering of the input, which is exactly
what `sorted` returns on integers. -/
def sortNat : List ℕ → List ℕ
  | [] => []
  | x :: xs => insortNat x (sortNat xs)

/-- The adjacency filter of `detect_chains`: a joint enters the graph only
when both rigid indices are in `[0, nrb)`. -/
def jointValid (nrb : ℕ) (jt : Joint) : Bool :=
  !(jt.src_rigid < 0 || jt.dest_rigid < 0 || (nrb : ℤ) ≤ jt.src_rigid ||
    (nrb : ℤ) ≤ jt.dest_rigid)

/-- The adjacency entries joint `j` contributes to body `i`'s neighbor list
(the source appends `(dst, j)` under `src` and `(src, j)` under `dst`). -/
def jointEdgesFor (nrb i j : ℕ) (jt : Joint) : List (ℕ × ℕ) :=
  if jointValid nrb jt then
    (if jt.src_rigid = (i : ℤ) then [(jt.dest_rigid.toNat, j)] else []) ++
    (if jt.dest_rigid = (i : ℤ) then [(jt.src_rigid.toNat, j)] else [])
  else []

/-- Walk the joint list with its running index, concatenating each joint's
adjacency contributions (helper for `chainNeighbors`). -/
def chainNeighborsAux (nrb i : ℕ) : ℕ → List Joint → List (ℕ × ℕ)
  | _, [] => []
  | j, jt :: rest =>
    jointEdgesFor nrb i j jt ++ chainNeighborsAux nrb i (j + 1) rest

/-- `neighbors[i]`: adjacency list over rigid-body indices, built by
`enumerate(joints)` order as in the source. -/
def chainNeighbors (joints : List Joint) (nrb i : ℕ) : List (ℕ × ℕ) :=
  chainNeighborsAux nrb i 0 joints

/-- A chain root: a STATIC body with at least one non-STATIC neighbor. -/
def isChainRoot (model : Model) (i : ℕ) : Bool :=
  (rbAt model i).mode == .static &&
    (chainNeighbors model.joints model.rigid_bodies.length i).any
      (fun e => (rbAt model e.1).mode != .static)

/-- BFS working state: the globally shared visited set plus the current
chain's queue and collected rigid/joint indices. -/
structure BfsSt where
  visited : Finset ℕ
  queue : List ℕ
  rigids : List ℕ
  joints : List ℕ

/-- The seed loop body of `detect_chains`: a non-STATIC unvisited neighbor
of the root is marked visited, queued, and collected (its joint index is
appended unconditionally). -/
def seedStep (mode : ℕ → RigidMode) (st : BfsSt) (e : ℕ × ℕ) : BfsSt :=
  if mode e.1 = .static then st
  else if e.1 ∈ st.visited then st
  else { visited := insert e.1 st.visited, queue := st.queue ++ [e.1],
         rigids := st.rigids ++ [e.1], joints := st.joints ++ [e.2] }

/-- The expansion loop body: skip visited bodies and the root, skip STATIC
bodies, otherwise mark/queue/collect (the joint index deduplicated). -/
def expandStep (mode : ℕ → RigidMode) (root : ℕ) (st : BfsSt) (e : ℕ × ℕ) :
    BfsSt :=
  if e.1 ∈ st.visited ∨ e.1 = root then st
  else if mode e.1 = .static then st
  else { visited := insert e.1 st.visited, queue := st.queue ++ [e.1],
         rigids := st.rigids ++ [e.1],
         joints := if e.2 ∈ st.joints then st.joints
                   else st.joints ++ [e.2] }

/-- The BFS `while queue` loop, with explicit fuel.  `detect_chains` always
supplies enough fuel for the loop to drain its queue
(`bfsRun_queue_empty` below), so the fuel bound is never the reason the
loop stops — matching the source, whose loop exits only on an empty queue. -/
def bfsRun (mode : ℕ → RigidMode) (nbrs : ℕ → List (ℕ × ℕ)) (root : ℕ) :
    ℕ → BfsSt → BfsSt
  | 0, st => st
  | fuel + 1, st =>
    match st.queue with
    | [] => st
    | c :: rest =>
      bfsRun mode nbrs root fuel
        ((nbrs c).foldl (expandStep mode root) { st with queue := rest })

/-- A detected physics chain (`Chain` in `chains.py`). -/
structure Chain where
  name : List ℕ
  group : String
  root_rigid_index : ℕ
  root_bone_index : ℤ
  rigid_indices : List ℕ
  bone_indices : List ℤ
  joint_indices : List ℕ
deriving DecidableEq

/-- The per-root step of `detect_chains`: seed from the root's non-STATIC
neighbors, BFS outward, and append a `Chain` when any body was collected;
the visited set persists across roots. -/
def rootStep (classify : List ℕ → List (List ℕ) → String) (model : Model)
    (acc : Finset ℕ × List Chain) (root : ℕ) : Finset ℕ × List Chain :=
  let n := model.rigid_bodies.length
  let mode := fun i => (rbAt model i).mode
  let nbrs := chainNeighbors model.joints n
  let st0 : BfsSt := { visited := acc.1, queue := [], rigids := [], joints := [] }
  let st1 := (nbrs root).foldl (seedStep mode) st0
  let stF := bfsRun mode nbrs root (2 * n + st1.queue.length + 1) st1
  if stF.rigids = [] then (stF.visited, acc.2)
  else
    (stF.visited, acc.2 ++
      [{ name := (rbAt model root).name
         group := classify (rbAt model root).name
           (stF.rigids.map (fun ri => (rbAt model ri).name))
         root_rigid_index := root
         root_bone_index := (rbAt model root).bone_index
         rigid_indices := stF.rigids
         bone_indices := stF.rigids.filterMap (fun ri =>
           if 0 ≤ (rbAt model ri).bone_index then
             some (rbAt model ri).bone_index
           else none)
         joint_indices := sortNat stF.joints }])

/-- `detect_chains`: roots in ascending index order, one BFS per root, the
visited set shared across all of them. -/
def detect_chains (classify : List ℕ → List (List ℕ) → String)
    (model : Model) : List Chain :=
  let n := model.rigid_bodies.length
  let roots := sortNat ((List.range n).filter (isChainRoot model))
  (roots.foldl (rootStep classify model) ((∅ : Finset ℕ), [])).2

/-! ## Spec-side helpers and concrete inputs used by the claim theorems -/

/-- Number of records a fixed-size VMD section yields: the declared count,
capped by how many whole records fit between the count field and the buffer
end. -/
def vmdSectionLen (buf : List ℕ) (pos sz : ℕ) : ℕ :=
  if pos + 4 > buf.length then 0
  else min (u32At buf pos) ((buf.length - (pos + 4)) / sz)

/-- Bytes consumed by a signed index read of the given declared width
(widths other than 1 and 2 take the 4-byte branch). -/
def sidxLen (size : ℕ) : ℕ :=
  if size = 1 then 1 else if size = 2 then 2 else 4

/-- A PMX header with UTF-8 text and every index width 1 (used by concrete
inputs below). -/
def hdrDemo : Header :=
  { version := .finite 2, encoding := "utf-8", additional_uv_count := 0,
    vertex_index_size := 1, texture_index_size := 1, material_index_size := 1,
    bone_index_size := 1, morph_index_size := 1, rigid_index_size := 1 }

/-- Four zero bytes (an int32 0 field). -/
def z4 : List ℕ := [0, 0, 0, 0]

/-- A PMX prefix with good magic, version 2.0 (bytes `00 00 00 40`) and an
8-byte globals array selecting UTF-8 and 1-byte indices. -/
def pmxPrefix20 : List ℕ := pmxMagic ++ [0, 0, 0, 64] ++ [8] ++ [1, 0, 1, 1, 1, 1, 1, 1]

/-- The same prefix with the version field holding float32 2.1
(bytes `66 66 06 40`, bit pattern 0x40066666). -/
def pmxPrefix21 : List ℕ := pmxMagic ++ [102, 102, 6, 64] ++ [8] ++ [1, 0, 1, 1, 1, 1, 1, 1]

/-- One serialized PMX material record with empty names/comment, all color
scalars zero, no textures (index −1), shared toon, and `face_count = 3`. -/
def matRec3 : List ℕ :=
  z4 ++ z4 ++ List.replicate 16 0 ++ List.replicate 12 0 ++ z4 ++
    List.replicate 12 0 ++ [0] ++ List.replicate 16 0 ++ z4 ++
    [255] ++ [255] ++ [0] ++ [1] ++ [0] ++ z4 ++ [3, 0, 0, 0]

/-- A complete PMX file with zero vertices, zero faces, zero textures, one
material declaring `face_count = 3`, and all remaining sections empty. -/
def pmxFcMismatch : List ℕ :=
  pmxPrefix20 ++ z4 ++ z4 ++ z4 ++ z4 ++
    z4 ++ z4 ++ z4 ++ [1, 0, 0, 0] ++ matRec3 ++ z4 ++ z4 ++ z4 ++ z4 ++ z4

/-- A 50-byte VMD header whose first 25 bytes are the signature but whose
padding bytes 25–29 are `"AAAAA"` instead of nulls (model-name field all
nulls). -/
def vmdOddPadding : List ℕ :=
  vmdSignature ++ [65, 65, 65, 65, 65] ++ List.replicate 20 0

/-- A VMD file whose property section declares one keyframe with two IK
states but ends after the first: 50-byte header, empty bone/morph/camera/
light/shadow sections, then count 1, frame 7, visible 1, declared IK count
2, and a single 21-byte IK entry (name `"A"×20`, enabled 1). -/
def vmdTruncatedIk : List ℕ :=
  vmdSignature ++ List.replicate 5 0 ++ List.replicate 20 0 ++
    z4 ++ z4 ++ z4 ++ z4 ++ z4 ++
    [1, 0, 0, 0] ++ [7, 0, 0, 0] ++ [1] ++ [2, 0, 0, 0] ++
    List.replicate 20 65 ++ [1]

/-- A well-formed VMD file whose property section holds one keyframe with
one IK state (same layout as `vmdTruncatedIk` but with the declared IK
count satisfied). -/
def vmdOneProperty : List ℕ :=
  vmdSignature ++ List.replicate 5 0 ++ List.replicate 20 0 ++
    z4 ++ z4 ++ z4 ++ z4 ++ z4 ++
    [1, 0, 0, 0] ++ [7, 0, 0, 0] ++ [1] ++ [1, 0, 0, 0] ++
    List.replicate 20 65 ++ [1]

/-- Zero float triple. -/
def v3z : V3 := (.finite 0, .finite 0, .finite 0)

/-- A rigid body of the given mode/name, bound to bone 2 (concrete chain
inputs). -/
def demoRigid (m : RigidMode) (nm : List ℕ) : RigidBody :=
  { rbDefault with mode := m, name := nm, bone_index := 2 }

/-- A 6-DOF joint between the given rigid indices (concrete chain inputs). -/
def demoJoint (s d : ℤ) : Joint :=
  { name := [], name_e := [], mode := 0, src_rigid := s, dest_rigid := d,
    position := v3z, rotation := v3z, limit_move_lower := v3z,
    limit_move_upper := v3z, limit_rotate_lower := v3z,
    limit_rotate_upper := v3z, spring_constant_move := v3z,
    spring_constant_rotate := v3z }

/-- A model with a single DYNAMIC rigid body and no joints: the body is
adjacent to no STATIC root, so no chain can claim it. -/
def modelLoneDynamic : Model :=
  { header := hdrDemo, name := [], name_e := [], comment := [],
    comment_e := [], rigid_bodies := [demoRigid .dynamic [72]], joints := [] }

/-- A model with a STATIC root (0), two DYNAMIC bodies (1, 2), joints 0–1
and 1–2, plus a joint whose destination index 9 is out of range. -/
def modelSmallChain : Model :=
  { header := hdrDemo, name := [], name_e := [], comment := [],
    comment_e := [],
    rigid_bodies := [demoRigid .static [72], demoRigid .dynamic [73],
                     demoRigid .dynamic [74]],
    joints := [demoJoint 0 1, demoJoint 1 2, demoJoint 0 9] }

/-- A classifier for concrete runs of `detect_chains` (the classification
string never affects the claims below). -/
def classifyOther : List ℕ → List (List ℕ) → String := fun _ _ => "other"


/-- A faces section declaring 7 indices (2 whole triangles) over vertex
indices 1..6 with 1-byte index width. -/
def facesBufDemo : List ℕ := [7, 0, 0, 0, 1, 2, 3, 4, 5, 6]

/-- A BONE morph offset record: 1-byte bone index 0, zero location, and an
all-zero file quaternion (the repaired case). -/
def boneMorphBufDemo : List ℕ := List.replicate 29 0


/-- Invariant of one BFS run relative to the visited set `V0` it started
from: the visited set only grows; collected rigid indices are distinct,
newly visited, in range and non-STATIC; collected joint indices denote
joints that passed the adjacency validity filter. -/
def bfsInv (model : Model) (V0 : Finset ℕ) (st : BfsSt) : Prop :=
  V0 ⊆ st.visited ∧ st.rigids.Nodup ∧
  (∀ x ∈ st.rigids, x ∈ st.visited ∧ x ∉ V0 ∧
    x < model.rigid_bodies.length ∧ (rbAt model x).mode ≠ .static) ∧
  (∀ y ∈ st.joints, ∃ jt, model.joints[y]? = some jt ∧
    jointValid model.rigid_bodies.length jt = true)

/-- Invariant of the whole-root fold of `detect_chains`: every chain member
is recorded in the shared visited set, in range and non-STATIC; every chain
joint index denotes a valid joint; no rigid index appears twice across (or
within) the chains collected so far. -/
def chainsInv (model : Model) (acc : Finset ℕ × List Chain) : Prop :=
  (∀ c ∈ acc.2, (∀ i ∈ c.rigid_indices, i ∈ acc.1 ∧
      i < model.rigid_bodies.length ∧ (rbAt model i).mode ≠ .static) ∧
    (∀ y ∈ c.joint_indices, ∃ jt, model.joints[y]? = some jt ∧
      jointValid model.rigid_bodies.length jt = true)) ∧
  ((acc.2.map Chain.rigid_indices).flatten).Nodup

/-- The single chain `detect_chains` finds in `modelSmallChain`. -/
def chainSmallDemo : Chain :=
  { name := [72], group := "other", root_rigid_index := 0,
    root_bone_index := 2, rigid_indices := [1, 2], bone_indices := [2, 2],
    joint_indices := [0, 1] }

/-! ## Claim theorems -/

deriving instance DecidableEq for Except

set_option maxRecDepth 8192

/-- C7: `convert_position` (`_pos`) and `convert_rotation` (`_rot`) are the
pure axis swap `(x, y, z) → (x, z, y)`, and applying either twice returns
the original triple. -/
theorem c7_coordinate_swap_involution (v : V3) :
    _pos3 (_pos3 v) = v ∧ _rot3 (_rot3 v) = v ∧
    _pos3 v = (v.1, v.2.2, v.2.1) ∧ _rot3 v = (v.1, v.2.2, v.2.1) := by
  obtain ⟨x, y, z⟩ := v
  simp [_pos3, _pos, _rot3, _rot]

/-- C3: a file with good magic whose version field holds float32 2.1 (bit
pattern 0x40066666, bytes `66 66 06 40`) is rejected as an unsupported
version, because the widened float32 value 2.0999999046325684 is not equal
to the binary64 literal 2.1; the same file with version float32 2.0 passes
the header check.  This contradicts the declared support for PMX 2.1. -/
theorem c3_version_float32 :
    pmxParseHeader pmxPrefix21 0 = .error .unsupportedVersion ∧
    (pmxParseHeader pmxPrefix20 0).isOk = true := by decide

/-- C1: on a VMD file whose property section holds one entry, the parser
logic produces a motion carrying all four keyframe sequences, the property
sequence holding one `PropertyKeyframe` with its frame, visibility flag and
(IK-name, enabled) pair — the shape `vmd/types.py` fails to declare. -/
theorem c1_parse_builds_property_keyframes :
    vmdParse vmdOneProperty =
      .ok { model_name := [], bone_keyframes := [], morph_keyframes := [],
            camera_keyframes := [],
            property_keyframes :=
              [{ frame := 7, visible := true,
                 ik_states := [(List.replicate 20 65, true)] }] } := by decide

/-- C5 counterexample: a 50-byte input whose first 30 bytes differ from the
null-padded 30-byte signature (bytes 25–29 are `"AAAAA"`) does not raise
"not a VMD" — the source checks only that the first 25 bytes match. -/
theorem c5_counterexample :
    vmdOddPadding.take 30 ≠ vmdSignature ++ List.replicate 5 0 ∧
    vmdParse vmdOddPadding =
      .ok { model_name := [], bone_keyframes := [], morph_keyframes := [],
            camera_keyframes := [], property_keyframes := [] } := by decide

/-- C6 counterexample: a property section declaring one record with IK
count 2 but truncated after the first IK pair still returns that record,
carrying only the one fully-read pair — a partially-read record is
included, not only fully-read ones. -/
theorem c6_counterexample :
    u32At vmdTruncatedIk 79 = 2 ∧
    vmdParse vmdTruncatedIk =
      .ok { model_name := [], bone_keyframes := [], morph_keyframes := [],
            camera_keyframes := [],
            property_keyframes :=
              [{ frame := 7, visible := true,
                 ik_states := [(List.replicate 20 65, true)] }] } := by decide

/-- C2 counterexample: a model whose only rigid body is DYNAMIC but
adjacent to no STATIC root yields no chains at all, so the union of chain
rigid-index sets misses a non-STATIC body. -/
theorem c2_counterexample :
    detect_chains classifyOther modelLoneDynamic = [] ∧
    modelLoneDynamic.rigid_bodies.length = 1 ∧
    (rbAt modelLoneDynamic 0).mode ≠ .static := by decide

/-- C4 counterexample: a PMX file with zero faces and one material
declaring `face_count = 3` parses successfully into a model violating
`sum(face_count) = 3 · len(faces)` — the parser never validates the
material face counts. -/
theorem c4_counterexample :
    (pmxParse pmxFcMismatch).toOption.map
      (fun m => decide ((m.materials.map Material.face_count).sum =
        3 * (m.faces.length : ℤ))) = some false := by decide

/-- The fixed-size section loop yields exactly `min cnt (avail / sz)`
records, each decoded from its `sz`-byte slot, ending right after the last
one. -/
theorem vmdFixedLoop_eq {α : Type} (buf : List ℕ) (sz : ℕ) (hsz : 0 < sz)
    (dec : ℕ → α) (cnt : ℕ) :
    ∀ (pos : ℕ),
      vmdFixedLoop buf sz dec cnt pos =
        ((List.range (min cnt ((buf.length - pos) / sz))).map
           (fun i => dec (pos + sz * i)),
         pos + sz * min cnt ((buf.length - pos) / sz)) := by
  induction cnt with
  | zero => intro pos; simp [vmdFixedLoop]
  | succ n ih =>
    intro pos
    rw [vmdFixedLoop]
    by_cases h : pos + sz > buf.length
    · have h0 : (buf.length - pos) / sz = 0 := Nat.div_eq_of_lt (by omega)
      simp [h, h0]
    · have hstep : (buf.length - pos) / sz = (buf.length - (pos + sz)) / sz + 1 := by
        have he : buf.length - pos = buf.length - (pos + sz) + sz := by omega
        rw [he, Nat.add_div_right _ hsz]
      rw [if_neg h, ih (pos + sz), hstep, Nat.succ_min_succ,
        List.range_succ_eq_map]
      simp only [List.map_cons, List.map_map, Nat.mul_zero, Nat.add_zero,
        Prod.mk.injEq, List.cons.injEq, Nat.succ_eq_add_one]
      refine ⟨⟨trivial, ?_⟩, by rw [Nat.mul_succ]; omega⟩
      apply List.map_congr_left
      intro i _
      simp only [Function.comp_apply]
      congr 1
      rw [Nat.mul_succ]
      omega

/-- The property-keyframe loop never yields more records than requested. -/
theorem vmdPropLoop_length_le (buf : List ℕ) (cnt : ℕ) :
    ∀ (pos : ℕ), (vmdPropLoop buf cnt pos).1.length ≤ cnt := by
  induction cnt with
  | zero => intro pos; simp [vmdPropLoop]
  | succ n ih =>
    intro pos
    rw [vmdPropLoop]
    by_cases h1 : pos + 5 > buf.length
    · simp [h1]
    · rw [if_neg h1]
      by_cases h2 : pos + 5 + 4 > buf.length
      · simp [h2]
      · rw [if_neg h2]
        simpa using Nat.succ_le_succ (ih _)

/-- C6 (amended): a repeating VMD section whose declared count cannot be
satisfied stops at the first record that would read past the buffer end and
never raises; the bone, morph and camera sections return exactly the
fully-read records (each decoded from its fixed-size slot), while the
property section returns at most the declared number of records — its
final record may carry only the IK pairs read before the end
(`c6_counterexample`). -/
theorem c6_truncated_sections (buf : List ℕ) (pos : ℕ) :
    (vmdReadBoneKeyframes buf pos).1 =
      (List.range (vmdSectionLen buf pos 111)).map
        (fun i => vmdDecodeBoneKf buf (pos + 4 + 111 * i)) ∧
    (vmdReadMorphKeyframes buf pos).1 =
      (List.range (vmdSectionLen buf pos 23)).map
        (fun i => vmdDecodeMorphKf buf (pos + 4 + 23 * i)) ∧
    (vmdReadCameraKeyframes buf pos).1 =
      (List.range (vmdSectionLen buf pos 61)).map
        (fun i => vmdDecodeCameraKf buf (pos + 4 + 61 * i)) ∧
    (pos + 4 ≤ buf.length →
      (vmdReadPropertyKeyframes buf pos).1.length ≤ u32At buf pos) := by
  refine ⟨?_, ?_, ?_, ?_⟩
  · rw [vmdReadBoneKeyframes, vmdSectionLen]
    by_cases h : pos + 4 > buf.length
    · simp [h]
    · rw [if_neg h, if_neg h, vmdBoneLoop,
        vmdFixedLoop_eq buf 111 (by norm_num) _ _ (pos + 4)]
  · rw [vmdReadMorphKeyframes, vmdSectionLen]
    by_cases h : pos + 4 > buf.length
    · simp [h]
    · rw [if_neg h, if_neg h, vmdMorphLoop,
        vmdFixedLoop_eq buf 23 (by norm_num) _ _ (pos + 4)]
  · rw [vmdReadCameraKeyframes, vmdSectionLen]
    by_cases h : pos + 4 > buf.length
    · simp [h]
    · rw [if_neg h, if_neg h, vmdCameraLoop,
        vmdFixedLoop_eq buf 61 (by norm_num) _ _ (pos + 4)]
  · intro h
    rw [vmdReadPropertyKeyframes, if_neg (by omega)]
    exact vmdPropLoop_length_le buf _ _

/-- C6 witness: the section characterization applied to the concrete
truncated property buffer. -/
theorem c6_truncated_sections_witness :
    (vmdReadPropertyKeyframes vmdTruncatedIk 70).1.length ≤
      u32At vmdTruncatedIk 70 :=
  (c6_truncated_sections vmdTruncatedIk 70).2.2.2 (by decide)

/-- C5 (amended): inputs shorter than 50 bytes raise "too small"; inputs of
at least 50 bytes raise "not a VMD" exactly when the first 25 bytes differ
from the signature (bytes 25-29 of the 30-byte field are not checked), and
pass the header check (the parse returns a motion) when the signature
prefix matches. -/
theorem c5_header_checks (buf : List ℕ) :
    (buf.length < 50 → vmdParse buf = .error (.tooSmall buf.length)) ∧
    (50 ≤ buf.length → vmdSigOk buf = false →
      vmdParse buf = .error .badSignature) ∧
    (50 ≤ buf.length → vmdSigOk buf = true → (vmdParse buf).isOk = true) := by
  refine ⟨fun h => ?_, fun h hs => ?_, fun h hs => ?_⟩
  · rw [vmdParse, if_pos h]
  · rw [vmdParse, if_neg (by omega), hs]
    rfl
  · rw [vmdParse, if_neg (by omega), hs]
    rfl

/-- C5 witness: the header checks applied to three concrete inputs. -/
theorem c5_header_checks_witness :
    vmdParse (List.replicate 10 0) =
      .error (.tooSmall (List.replicate 10 0).length) ∧
    vmdParse (List.replicate 50 0) = .error .badSignature ∧
    (vmdParse vmdOddPadding).isOk = true :=
  ⟨(c5_header_checks (List.replicate 10 0)).1 (by decide),
   (c5_header_checks (List.replicate 50 0)).2.1 (by decide) (by decide),
   (c5_header_checks vmdOddPadding).2.2 (by decide) (by decide)⟩

/-- Inversion of a successful `Except` bind. -/
theorem exceptBind_ok {ε α β : Type} {x : Except ε α} {f : α → Except ε β} {b : β}
    (h : x >>= f = .ok b) : ∃ a, x = .ok a ∧ f a = .ok b := by
  cases x with
  | error e => simp [Bind.bind, Except.bind] at h
  | ok a => exact ⟨a, rfl, by simpa [Bind.bind, Except.bind] using h⟩

/-- Bind on an error propagates the error. -/
theorem exceptBind_error {ε α β : Type} (e : ε) (f : α → Except ε β) :
    (Except.error e : Except ε α) >>= f = .error e := rfl

/-- Bind on a success applies the continuation. -/
theorem exceptBind_okArg {ε α β : Type} (a : α) (f : α → Except ε β) :
    (Except.ok a : Except ε α) >>= f = f a := rfl

/-- A record loop whose step is an element-map of another's yields the
mapped record list. -/
theorem pmxLoop_map {α β : Type} (f : α → β) (step : ℕ → Except PmxError (α × ℕ))
    (step' : ℕ → Except PmxError (β × ℕ))
    (hstep : ∀ q, step' q = (step q).map (fun r => (f r.1, r.2))) (n : ℕ) :
    ∀ pos, pmxLoop step' n pos =
      (pmxLoop step n pos).map (fun r => (r.1.map f, r.2)) := by
  induction n with
  | zero => intro pos; simp [pmxLoop, Except.map]
  | succ n ih =>
    intro pos
    rw [pmxLoop, pmxLoop, hstep pos]
    cases h : step pos with
    | error e => rfl
    | ok ap =>
      obtain ⟨a, p⟩ := ap
      rw [Except.map, exceptBind_okArg, exceptBind_okArg]
      dsimp only
      rw [ih p]
      cases h2 : pmxLoop step n p with
      | error e => rfl
      | ok r =>
        obtain ⟨l, p2⟩ := r
        rfl

/-- A successful PMX record loop returns exactly the requested number of
records. -/
theorem pmxLoop_ok_length {α : Type} (step : ℕ → Except PmxError (α × ℕ)) (n : ℕ) :
    ∀ pos r, pmxLoop step n pos = .ok r → r.1.length = n := by
  induction n with
  | zero =>
    intro pos r h
    rw [pmxLoop] at h
    cases h
    rfl
  | succ n ih =>
    intro pos r h
    rw [pmxLoop] at h
    obtain ⟨⟨a, p⟩, h1, h2⟩ := exceptBind_ok h
    obtain ⟨⟨l, p2⟩, h3, h4⟩ := exceptBind_ok h2
    cases h4
    simpa using ih p (l, p2) h3

/-- C8: the decoded face list is exactly the source-order triple list with
every triangle's winding reversed — parsing with reversal agrees with
reading the triples in file order `(a, b, c)` and emitting `(c, b, a)`. -/
theorem c8_winding_reversal (buf : List ℕ) (hdr : Header) (pos : ℕ) :
    pmxParseFaces buf hdr pos =
      (pmxFaceTriplesSrc buf hdr pos).map
        (fun r => (r.1.map (fun t => (t.2.2, t.2.1, t.1)), r.2)) := by
  rw [pmxParseFaces, pmxFaceTriplesSrc]
  cases h : rdI32 buf pos with
  | error e => rfl
  | ok cp =>
    obtain ⟨c, p⟩ := cp
    rw [exceptBind_okArg, exceptBind_okArg]
    dsimp only
    refine pmxLoop_map _ _ _ ?_ _ p
    intro q
    cases h1 : rdUnsignedIdx buf hdr.vertex_index_size q with
    | error e => rfl
    | ok r1 =>
      obtain ⟨f1, q1⟩ := r1
      rw [exceptBind_okArg, exceptBind_okArg]
      dsimp only
      cases h2 : rdUnsignedIdx buf hdr.vertex_index_size q1 with
      | error e => rfl
      | ok r2 =>
        obtain ⟨f2, q2⟩ := r2
        rw [exceptBind_okArg, exceptBind_okArg]
        dsimp only
        cases h3 : rdUnsignedIdx buf hdr.vertex_index_size q2 with
        | error e => rfl
        | ok r3 =>
          obtain ⟨f3, q3⟩ := r3
          rfl

/-- C4 (amended): the parser guarantees only the face-list side of the
invariant — a successfully parsed faces section holds exactly
`⌊index_count/3⌋` triangles; material `face_count` fields are decoded
verbatim with no cross-check, so the sum equation can fail
(`c4_counterexample`). -/
theorem c4_faces_length (buf : List ℕ) (hdr : Header) (pos : ℕ)
    (r : List (ℕ × ℕ × ℕ) × ℕ) (h : pmxParseFaces buf hdr pos = .ok r) :
    r.1.length = ((i32At buf pos).fdiv 3).toNat := by
  rw [pmxParseFaces] at h
  obtain ⟨⟨c, p⟩, h1, h2⟩ := exceptBind_ok h
  have hc : c = i32At buf pos := by
    rw [rdI32] at h1
    split at h1
    · cases h1
      rfl
    · exact Except.noConfusion h1
  dsimp only at h2
  rw [pmxLoop_ok_length _ _ _ _ h2, hc]

/-- A successful variable-width signed index read advances by the width's
byte count. -/
theorem rdSignedIdx_ok_pos {buf : List ℕ} {size pos : ℕ} {v : ℤ} {p' : ℕ}
    (h : rdSignedIdx buf size pos = .ok (v, p')) : p' = pos + sidxLen size := by
  rw [rdSignedIdx] at h
  rw [sidxLen]
  split_ifs at h ⊢ with hs1 hs2
  · rw [rdI8] at h
    split at h
    · cases h
      rfl
    · exact Except.noConfusion h
  · rw [rdI16] at h
    split at h
    · cases h
      rfl
    · exact Except.noConfusion h
  · rw [rdI32] at h
    split at h
    · cases h
      rfl
    · exact Except.noConfusion h

/-- A successful `read_vec3` yields the three floats at its position. -/
theorem rdVec3_ok {buf : List ℕ} {pos : ℕ} {v : V3} {p' : ℕ}
    (h : rdVec3 buf pos = .ok (v, p')) :
    v = (f32At buf pos, f32At buf (pos + 4), f32At buf (pos + 8)) ∧
      p' = pos + 12 := by
  rw [rdVec3] at h
  split at h
  · cases h
    exact ⟨rfl, rfl⟩
  · exact Except.noConfusion h

/-- A successful `read_vec4` yields the four floats at its position. -/
theorem rdVec4_ok {buf : List ℕ} {pos : ℕ} {v : V4} {p' : ℕ}
    (h : rdVec4 buf pos = .ok (v, p')) :
    v = (f32At buf pos, f32At buf (pos + 4), f32At buf (pos + 8),
      f32At buf (pos + 12)) ∧ p' = pos + 16 := by
  rw [rdVec4] at h
  split at h
  · cases h
    exact ⟨rfl, rfl⟩
  · exact Except.noConfusion h

/-- C9: a decoded BONE morph offset's rotation is `(qx, qz, −qy, qw)` of
the file quaternion read after the bone index and location, with an
all-zero file quaternion first repaired to identity so the decoded
rotation is `(0, 0, 0, 1)`. -/
theorem c9_bone_morph_quaternion (buf : List ℕ) (hdr : Header) (pos : ℕ)
    (off : MorphOffset) (p' : ℕ)
    (h : pmxParseMorphOffset buf hdr .bone pos = .ok (off, p')) :
    ∃ bi loc, off = MorphOffset.bone bi loc
      (if pyEqZero (f32At buf (pos + sidxLen hdr.bone_index_size + 12)) &&
          pyEqZero (f32At buf (pos + sidxLen hdr.bone_index_size + 16)) &&
          pyEqZero (f32At buf (pos + sidxLen hdr.bone_index_size + 20)) &&
          pyEqZero (f32At buf (pos + sidxLen hdr.bone_index_size + 24)) then
        (.finite 0, .finite 0, .finite 0, .finite 1)
      else
        (f32At buf (pos + sidxLen hdr.bone_index_size + 12),
         f32At buf (pos + sidxLen hdr.bone_index_size + 20),
         pyNeg (f32At buf (pos + sidxLen hdr.bone_index_size + 16)),
         f32At buf (pos + sidxLen hdr.bone_index_size + 24))) := by
  rw [pmxParseMorphOffset] at h
  obtain ⟨⟨bi, p1⟩, h1, h⟩ := exceptBind_ok h
  dsimp only at h
  obtain ⟨⟨l, p2⟩, h2, h⟩ := exceptBind_ok h
  dsimp only at h
  obtain ⟨⟨q, p3⟩, h3, h⟩ := exceptBind_ok h
  dsimp only at h
  cases h
  have hp1 := rdSignedIdx_ok_pos h1
  have hv3 := (rdVec3_ok h2).2
  obtain ⟨hq, _⟩ := rdVec4_ok h3
  subst hp1
  subst hv3
  refine ⟨bi, _pos3 l, ?_⟩
  subst hq
  dsimp only
  by_cases hz :
      (pyEqZero (f32At buf (pos + sidxLen hdr.bone_index_size + 12)) &&
        pyEqZero (f32At buf (pos + sidxLen hdr.bone_index_size + 12 + 4)) &&
        pyEqZero (f32At buf (pos + sidxLen hdr.bone_index_size + 12 + 8)) &&
        pyEqZero (f32At buf (pos + sidxLen hdr.bone_index_size + 12 + 12))) = true
  · have hz' : (pyEqZero (f32At buf (pos + sidxLen hdr.bone_index_size + 12)) &&
        pyEqZero (f32At buf (pos + sidxLen hdr.bone_index_size + 16)) &&
        pyEqZero (f32At buf (pos + sidxLen hdr.bone_index_size + 20)) &&
        pyEqZero (f32At buf (pos + sidxLen hdr.bone_index_size + 24))) = true := by
      have e1 : pos + sidxLen hdr.bone_index_size + 12 + 4 =
          pos + sidxLen hdr.bone_index_size + 16 := by omega
      have e2 : pos + sidxLen hdr.bone_index_size + 12 + 8 =
          pos + sidxLen hdr.bone_index_size + 20 := by omega
      have e3 : pos + sidxLen hdr.bone_index_size + 12 + 12 =
          pos + sidxLen hdr.bone_index_size + 24 := by omega
      rw [e1, e2, e3] at hz
      exact hz
    rw [if_pos hz, if_pos hz']
    simp [pyNeg]
  · have hz' : (pyEqZero (f32At buf (pos + sidxLen hdr.bone_index_size + 12)) &&
        pyEqZero (f32At buf (pos + sidxLen hdr.bone_index_size + 16)) &&
        pyEqZero (f32At buf (pos + sidxLen hdr.bone_index_size + 20)) &&
        pyEqZero (f32At buf (pos + sidxLen hdr.bone_index_size + 24))) = false := by
      have e1 : pos + sidxLen hdr.bone_index_size + 12 + 4 =
          pos + sidxLen hdr.bone_index_size + 16 := by omega
      have e2 : pos + sidxLen hdr.bone_index_size + 12 + 8 =
          pos + sidxLen hdr.bone_index_size + 20 := by omega
      have e3 : pos + sidxLen hdr.bone_index_size + 12 + 12 =
          pos + sidxLen hdr.bone_index_size + 24 := by omega
      rw [e1, e2, e3] at hz
      simpa using hz
    rw [if_neg (by simp [hz]), if_neg (by simp [hz'])]


/-- C4 witness: the faces-length guarantee at a concrete 7-index section. -/
theorem c4_faces_length_witness :
    (([(3, 2, 1), (6, 5, 4)], 10) : List (ℕ × ℕ × ℕ) × ℕ).1.length =
      ((i32At facesBufDemo 0).fdiv 3).toNat :=
  c4_faces_length facesBufDemo hdrDemo 0 ([(3, 2, 1), (6, 5, 4)], 10) (by decide)

/-- C9 witness: the quaternion rule at a concrete all-zero-quaternion BONE
offset record. -/
theorem c9_bone_morph_quaternion_witness :
    ∃ bi loc,
      MorphOffset.bone 0 v3z
          (.finite 0, .finite 0, .finite 0, .finite 1) =
        MorphOffset.bone bi loc
          (if pyEqZero (f32At boneMorphBufDemo 13) &&
              pyEqZero (f32At boneMorphBufDemo 17) &&
              pyEqZero (f32At boneMorphBufDemo 21) &&
              pyEqZero (f32At boneMorphBufDemo 25) then
            (.finite 0, .finite 0, .finite 0, .finite 1)
          else
            (f32At boneMorphBufDemo 13, f32At boneMorphBufDemo 21,
             pyNeg (f32At boneMorphBufDemo 17), f32At boneMorphBufDemo 25)) :=
  c9_bone_morph_quaternion boneMorphBufDemo hdrDemo 0
    (MorphOffset.bone 0 v3z (.finite 0, .finite 0, .finite 0, .finite 1)) 29
    (by decide)


/-- Insertion keeps exactly the old elements plus the inserted one. -/
theorem mem_insortNat {a x : ℕ} : ∀ {l : List ℕ},
    a ∈ insortNat x l ↔ a = x ∨ a ∈ l := by
  intro l
  induction l with
  | nil => simp [insortNat]
  | cons y ys ih =>
    rw [insortNat]
    split_ifs with h
    · simp [List.mem_cons]
    · simp only [List.mem_cons, ih]
      tauto

/-- `sortNat` preserves membership. -/
theorem mem_sortNat {a : ℕ} : ∀ {l : List ℕ}, a ∈ sortNat l ↔ a ∈ l := by
  intro l
  induction l with
  | nil => simp [sortNat]
  | cons x xs ih =>
    rw [sortNat]
    rw [mem_insortNat]
    simp [ih]

/-- Every adjacency entry produced by the joint walk comes from a joint
that passed the validity filter, and its body index is in range. -/
theorem mem_chainNeighborsAux {nrb i : ℕ} :
    ∀ (l : List Joint) (j0 : ℕ) (e : ℕ × ℕ), e ∈ chainNeighborsAux nrb i j0 l →
      ∃ k jt, l[k]? = some jt ∧ e.2 = j0 + k ∧ jointValid nrb jt = true ∧
        e.1 < nrb := by
  intro l
  induction l with
  | nil =>
    intro j0 e he
    simp [chainNeighborsAux] at he
  | cons jt rest ih =>
    intro j0 e he
    rw [chainNeighborsAux] at he
    rcases List.mem_append.mp he with h | h
    · rw [jointEdgesFor] at h
      by_cases hv : jointValid nrb jt = true
      · rw [if_pos hv] at h
        have hb : 0 ≤ jt.src_rigid ∧ 0 ≤ jt.dest_rigid ∧
            jt.src_rigid < (nrb : ℤ) ∧ jt.dest_rigid < (nrb : ℤ) := by
          have hv' := hv
          rw [jointValid] at hv'
          simp at hv'
          tauto
        rcases List.mem_append.mp h with h1 | h1
        · by_cases hs : jt.src_rigid = (i : ℤ)
          · rw [if_pos hs] at h1
            simp at h1
            subst h1
            exact ⟨0, jt, by simp, by simp, hv, by simp; omega⟩
          · rw [if_neg hs] at h1
            simp at h1
        · by_cases hs : jt.dest_rigid = (i : ℤ)
          · rw [if_pos hs] at h1
            simp at h1
            subst h1
            exact ⟨0, jt, by simp, by simp, hv, by simp; omega⟩
          · rw [if_neg hs] at h1
            simp at h1
      · rw [if_neg hv] at h
        simp at h
    · obtain ⟨k, jt', hk, he2, hv, hlt⟩ := ih (j0 + 1) e h
      refine ⟨k + 1, jt', by simpa using hk, by omega, hv, hlt⟩

/-- Every entry of `neighbors[i]` carries the index of a valid joint and
an in-range body index. -/
theorem mem_chainNeighbors {joints : List Joint} {nrb i : ℕ} {e : ℕ × ℕ}
    (he : e ∈ chainNeighbors joints nrb i) :
    ∃ jt, joints[e.2]? = some jt ∧ jointValid nrb jt = true ∧ e.1 < nrb := by
  obtain ⟨k, jt, hk, he2, hv, hlt⟩ := mem_chainNeighborsAux joints 0 e he
  have : e.2 = k := by omega
  rw [this]
  exact ⟨jt, hk, hv, hlt⟩

/-- A fold preserves any predicate its step preserves. -/
theorem foldl_pres {σ α : Type} (P : σ → Prop) (f : σ → α → σ) :
    ∀ (l : List α), (∀ s e, e ∈ l → P s → P (f s e)) →
      ∀ s, P s → P (l.foldl f s) := by
  intro l
  induction l with
  | nil =>
    intro _ s hs
    exact hs
  | cons x xs ih =>
    intro hf s hs
    exact ih (fun s e he hp => hf s e (List.mem_cons_of_mem _ he) hp) _
      (hf s x (List.mem_cons_self _ _) hs)

/-- The seed loop body preserves the BFS invariant. -/
theorem seedStep_inv (model : Model) (V0 : Finset ℕ) (root : ℕ) (st : BfsSt)
    (e : ℕ × ℕ)
    (he : e ∈ chainNeighbors model.joints model.rigid_bodies.length root)
    (h : bfsInv model V0 st) :
    bfsInv model V0 (seedStep (fun i => (rbAt model i).mode) st e) := by
  obtain ⟨h1, h2, h3, h4⟩ := h
  rw [seedStep]
  split_ifs with hm hv
  · exact ⟨h1, h2, h3, h4⟩
  · exact ⟨h1, h2, h3, h4⟩
  · obtain ⟨jt, hjt, hjv, hlt⟩ := mem_chainNeighbors he
    refine ⟨h1.trans (Finset.subset_insert _ _), ?_, ?_, ?_⟩
    · rw [List.nodup_append]
      refine ⟨h2, List.nodup_singleton _, ?_⟩
      rw [List.disjoint_singleton]
      exact fun hc => hv (h3 _ hc).1
    · intro x hx
      rcases List.mem_append.mp hx with hx | hx
      · obtain ⟨ha, hb, hc, hd⟩ := h3 x hx
        exact ⟨Finset.mem_insert_of_mem ha, hb, hc, hd⟩
      · simp at hx
        subst hx
        exact ⟨Finset.mem_insert_self _ _, fun hC => hv (h1 hC), hlt, hm⟩
    · intro y hy
      rcases List.mem_append.mp hy with hy | hy
      · exact h4 y hy
      · simp at hy
        subst hy
        exact ⟨jt, hjt, hjv⟩

/-- The expansion loop body preserves the BFS invariant. -/
theorem expandStep_inv (model : Model) (V0 : Finset ℕ) (root : ℕ) (st : BfsSt)
    (c : ℕ) (e : ℕ × ℕ)
    (he : e ∈ chainNeighbors model.joints model.rigid_bodies.length c)
    (h : bfsInv model V0 st) :
    bfsInv model V0 (expandStep (fun i => (rbAt model i).mode) root st e) := by
  obtain ⟨h1, h2, h3, h4⟩ := h
  rw [expandStep]
  split_ifs with hvr hm hj
  · exact ⟨h1, h2, h3, h4⟩
  · exact ⟨h1, h2, h3, h4⟩
  · obtain ⟨jt, hjt, hjv, hlt⟩ := mem_chainNeighbors he
    have hv : e.1 ∉ st.visited := fun hc => hvr (Or.inl hc)
    refine ⟨h1.trans (Finset.subset_insert _ _), ?_, ?_, fun y hy => h4 y hy⟩
    · rw [List.nodup_append]
      refine ⟨h2, List.nodup_singleton _, ?_⟩
      rw [List.disjoint_singleton]
      exact fun hc => hv (h3 _ hc).1
    · intro x hx
      rcases List.mem_append.mp hx with hx | hx
      · obtain ⟨ha, hb, hc, hd⟩ := h3 x hx
        exact ⟨Finset.mem_insert_of_mem ha, hb, hc, hd⟩
      · simp at hx
        subst hx
        exact ⟨Finset.mem_insert_self _ _, fun hC => hv (h1 hC), hlt, hm⟩
  · obtain ⟨jt, hjt, hjv, hlt⟩ := mem_chainNeighbors he
    have hv : e.1 ∉ st.visited := fun hc => hvr (Or.inl hc)
    refine ⟨h1.trans (Finset.subset_insert _ _), ?_, ?_, ?_⟩
    · rw [List.nodup_append]
      refine ⟨h2, List.nodup_singleton _, ?_⟩
      rw [List.disjoint_singleton]
      exact fun hc => hv (h3 _ hc).1
    · intro x hx
      rcases List.mem_append.mp hx with hx | hx
      · obtain ⟨ha, hb, hc, hd⟩ := h3 x hx
        exact ⟨Finset.mem_insert_of_mem ha, hb, hc, hd⟩
      · simp at hx
        subst hx
        exact ⟨Finset.mem_insert_self _ _, fun hC => hv (h1 hC), hlt, hm⟩
    · intro y hy
      rcases List.mem_append.mp hy with hy | hy
      · exact h4 y hy
      · simp at hy
        subst hy
        exact ⟨jt, hjt, hjv⟩

/-- The BFS loop preserves the BFS invariant for any fuel. -/
theorem bfsRun_inv (model : Model) (V0 : Finset ℕ)
    (nbrs : ℕ → List (ℕ × ℕ)) (root : ℕ)
    (hpres : ∀ (s : BfsSt) (c : ℕ) (e : ℕ × ℕ), e ∈ nbrs c →
      bfsInv model V0 s →
      bfsInv model V0 (expandStep (fun i => (rbAt model i).mode) root s e)) :
    ∀ (fuel : ℕ) (st : BfsSt), bfsInv model V0 st →
      bfsInv model V0
        (bfsRun (fun i => (rbAt model i).mode) nbrs root fuel st) := by
  intro fuel
  induction fuel with
  | zero =>
    intro st h
    rw [bfsRun]
    exact h
  | succ n ih =>
    intro st h
    rw [bfsRun]
    cases hq : st.queue with
    | nil => exact h
    | cons c rest =>
      exact ih _ (foldl_pres (bfsInv model V0)
        (expandStep (fun i => (rbAt model i).mode) root) _
        (fun s e he hp => hpres s c e he hp) _ h)

/-- Fuel sufficiency: with fuel exceeding twice the number of unvisited
in-range bodies plus the queue length, the BFS loop runs until its queue
is empty — exactly the source's `while queue` exit condition, so the fuel
bound in `detect_chains` never cuts the traversal short. -/
theorem bfsRun_queue_empty (n : ℕ) (mode : ℕ → RigidMode)
    (nbrs : ℕ → List (ℕ × ℕ)) (root : ℕ)
    (hn : ∀ c e, e ∈ nbrs c → e.1 < n) :
    ∀ (fuel : ℕ) (st : BfsSt),
      2 * (Finset.range n \ st.visited).card + st.queue.length < fuel →
      (bfsRun mode nbrs root fuel st).queue = [] := by
  intro fuel
  induction fuel with
  | zero =>
    intro st h
    omega
  | succ f ih =>
    intro st h
    rw [bfsRun]
    cases hq : st.queue with
    | nil => exact hq
    | cons c rest =>
      apply ih
      have key : ∀ (l : List (ℕ × ℕ)), (∀ e ∈ l, e.1 < n) → ∀ (s : BfsSt),
          2 * (Finset.range n \ (l.foldl (expandStep mode root) s).visited).card +
            (l.foldl (expandStep mode root) s).queue.length ≤
          2 * (Finset.range n \ s.visited).card + s.queue.length := by
        intro l
        induction l with
        | nil =>
          intro _ s
          exact le_refl _
        | cons e es ihe =>
          intro hl s
          refine le_trans (ihe (fun x hx => hl x (List.mem_cons_of_mem _ hx)) _) ?_
          rw [expandStep]
          split_ifs with h1 h2 h3
          · exact le_refl _
          · exact le_refl _
          · have he1 : e.1 < n := hl e (List.mem_cons_self _ _)
            have hnotv : e.1 ∉ s.visited := fun hc => h1 (Or.inl hc)
            have hmem : e.1 ∈ Finset.range n \ s.visited :=
              Finset.mem_sdiff.mpr ⟨Finset.mem_range.mpr he1, hnotv⟩
            have hcard : (Finset.range n \ insert e.1 s.visited).card =
                (Finset.range n \ s.visited).card - 1 := by
              rw [Finset.sdiff_insert, Finset.card_erase_of_mem hmem]
            have hpos : 0 < (Finset.range n \ s.visited).card :=
              Finset.card_pos.mpr ⟨e.1, hmem⟩
            dsimp only
            rw [hcard, List.length_append]
            simp only [List.length_singleton]
            omega
          · have he1 : e.1 < n := hl e (List.mem_cons_self _ _)
            have hnotv : e.1 ∉ s.visited := fun hc => h1 (Or.inl hc)
            have hmem : e.1 ∈ Finset.range n \ s.visited :=
              Finset.mem_sdiff.mpr ⟨Finset.mem_range.mpr he1, hnotv⟩
            have hcard : (Finset.range n \ insert e.1 s.visited).card =
                (Finset.range n \ s.visited).card - 1 := by
              rw [Finset.sdiff_insert, Finset.card_erase_of_mem hmem]
            have hpos : 0 < (Finset.range n \ s.visited).card :=
              Finset.card_pos.mpr ⟨e.1, hmem⟩
            dsimp only
            rw [hcard, List.length_append]
            simp only [List.length_singleton]
            omega
      have hk := key (nbrs c) (fun e he => hn c e he) { st with queue := rest }
      dsimp only at hk
      have hlen : st.queue.length = rest.length + 1 := by
        rw [hq]
        simp
      omega

/-- Appending the chain built from a BFS run (or none) preserves the
whole-fold invariant. -/
theorem chainsInv_extend (model : Model) (acc : Finset ℕ × List Chain)
    (stF : BfsSt) (h : chainsInv model acc)
    (hstF : bfsInv model acc.1 stF) :
    chainsInv model (stF.visited, acc.2) ∧
    ∀ (c : Chain), c.rigid_indices = stF.rigids →
      c.joint_indices = sortNat stF.joints →
      chainsInv model (stF.visited, acc.2 ++ [c]) := by
  obtain ⟨hall, hnd⟩ := h
  obtain ⟨hsub, hndF, hmemF, hjF⟩ := hstF
  have hold : ∀ c ∈ acc.2, (∀ i ∈ c.rigid_indices, i ∈ stF.visited ∧
      i < model.rigid_bodies.length ∧ (rbAt model i).mode ≠ .static) ∧
      (∀ y ∈ c.joint_indices, ∃ jt, model.joints[y]? = some jt ∧
        jointValid model.rigid_bodies.length jt = true) := by
    intro c hc
    obtain ⟨hr, hj⟩ := hall c hc
    exact ⟨fun i hi => ⟨hsub (hr i hi).1, (hr i hi).2.1, (hr i hi).2.2⟩, hj⟩
  have holdV0 : ∀ x, x ∈ (acc.2.map Chain.rigid_indices).flatten → x ∈ acc.1 := by
    intro x hx
    obtain ⟨l, hl, hxl⟩ := List.mem_flatten.mp hx
    obtain ⟨c, hc, rfl⟩ := List.mem_map.mp hl
    exact ((hall c hc).1 x hxl).1
  refine ⟨⟨hold, hnd⟩, ?_⟩
  intro c hcr hcj
  refine ⟨?_, ?_⟩
  · intro c' hc'
    rcases List.mem_append.mp hc' with hc' | hc'
    · exact hold c' hc'
    · simp at hc'
      subst hc'
      refine ⟨fun i hi => ?_, fun y hy => ?_⟩
      · rw [hcr] at hi
        obtain ⟨ha, _, hc2, hd⟩ := hmemF i hi
        exact ⟨ha, hc2, hd⟩
      · rw [hcj] at hy
        exact hjF y (mem_sortNat.mp hy)
  · rw [List.map_append, List.flatten_append]
    simp only [List.map_cons, List.map_nil, List.flatten_cons,
      List.flatten_nil, List.append_nil]
    rw [List.nodup_append]
    refine ⟨hnd, by rw [hcr]; exact hndF, ?_⟩
    intro x hx hx1
    rw [hcr] at hx1
    exact (hmemF x hx1).2.1 (holdV0 x hx)

/-- The per-root step of `detect_chains` preserves the fold invariant. -/
theorem rootStep_chainsInv (classify : List ℕ → List (List ℕ) → String)
    (model : Model) (acc : Finset ℕ × List Chain) (root : ℕ)
    (h : chainsInv model acc) :
    chainsInv model (rootStep classify model acc root) := by
  have hst0 : bfsInv model acc.1
      { visited := acc.1, queue := [], rigids := [], joints := [] } := by
    refine ⟨Finset.Subset.refl _, List.nodup_nil, ?_, ?_⟩ <;>
      intro x hx <;> simp at hx
  have hst1 := foldl_pres (bfsInv model acc.1)
    (seedStep (fun i => (rbAt model i).mode))
    (chainNeighbors model.joints model.rigid_bodies.length root)
    (fun s e he hp => seedStep_inv model acc.1 root s e he hp) _ hst0
  have hstF := bfsRun_inv model acc.1
    (chainNeighbors model.joints model.rigid_bodies.length) root
    (fun s c e he hp => expandStep_inv model acc.1 root s c e he hp)
    (2 * model.rigid_bodies.length +
      ((chainNeighbors model.joints model.rigid_bodies.length root).foldl
        (seedStep (fun i => (rbAt model i).mode))
        { visited := acc.1, queue := [], rigids := [], joints := [] }).queue.length + 1)
    _ hst1
  have hx := chainsInv_extend model acc _ h hstF
  rw [rootStep]
  split_ifs with hr
  · exact hx.1
  · exact hx.2 _ rfl rfl

/-- The fold underlying `detect_chains` establishes the invariant from the
empty state. -/
theorem detect_chains_inv (classify : List ℕ → List (List ℕ) → String)
    (model : Model) :
    chainsInv model
      ((sortNat ((List.range model.rigid_bodies.length).filter
          (isChainRoot model))).foldl (rootStep classify model)
        ((∅ : Finset ℕ), [])) := by
  refine foldl_pres (chainsInv model) (rootStep classify model) _
    (fun s r _ hp => rootStep_chainsInv classify model s r hp) _ ?_
  exact ⟨fun c hc => absurd hc (List.not_mem_nil c), by simp⟩

/-- C2 (amended): across all chains of a model, the rigid-body index lists
are pairwise disjoint and duplicate-free, and every listed index denotes an
in-range rigid body whose mode is not STATIC — the union is contained in
the non-STATIC set, but need not equal it (`c2_counterexample`). -/
theorem c2_chains_disjoint_nonstatic
    (classify : List ℕ → List (List ℕ) → String) (model : Model) :
    (((detect_chains classify model).map Chain.rigid_indices).flatten).Nodup ∧
    ∀ c ∈ detect_chains classify model, ∀ i ∈ c.rigid_indices,
      i < model.rigid_bodies.length ∧ (rbAt model i).mode ≠ .static := by
  obtain ⟨hall, hnd⟩ := detect_chains_inv classify model
  refine ⟨hnd, fun c hc i hi => ?_⟩
  obtain ⟨h1, _⟩ := hall c hc
  exact ⟨(h1 i hi).2.1, (h1 i hi).2.2⟩

/-- C10: a joint whose source or destination rigid index is negative or at
least the number of rigid bodies is excluded from the adjacency graph, so
it contributes to no chain — its index never appears in any chain's
`joint_indices`. -/
theorem c10_invalid_joints_excluded
    (classify : List ℕ → List (List ℕ) → String) (model : Model)
    (y : ℕ) (jt : Joint) (hjt : model.joints[y]? = some jt)
    (hbad : jt.src_rigid < 0 ∨ jt.dest_rigid < 0 ∨
      (model.rigid_bodies.length : ℤ) ≤ jt.src_rigid ∨
      (model.rigid_bodies.length : ℤ) ≤ jt.dest_rigid) :
    ∀ c ∈ detect_chains classify model, y ∉ c.joint_indices := by
  intro c hc hy
  obtain ⟨hall, _⟩ := detect_chains_inv classify model
  obtain ⟨_, hj⟩ := hall c hc
  obtain ⟨jt', hjt', hv⟩ := hj y hy
  rw [hjt] at hjt'
  cases hjt'
  rw [jointValid] at hv
  simp at hv
  rcases hbad with hb | hb | hb | hb <;> omega


/-- C2 witness: the chain partition facts at a concrete three-body model. -/
theorem c2_chains_disjoint_nonstatic_witness :
    1 < modelSmallChain.rigid_bodies.length ∧
    (rbAt modelSmallChain 1).mode ≠ RigidMode.static :=
  (c2_chains_disjoint_nonstatic classifyOther modelSmallChain).2
    chainSmallDemo (by decide) 1 (by decide)

/-- C10 witness: the out-of-range joint (0 → 9) of `modelSmallChain` is in
no detected chain. -/
theorem c10_invalid_joints_excluded_witness :
    2 ∉ chainSmallDemo.joint_indices :=
  c10_invalid_joints_excluded classifyOther modelSmallChain 2 (demoJoint 0 9)
    (by decide) (Or.inr (Or.inr (Or.inr (by decide)))) chainSmallDemo
    (by decide)
